import Mathlib

/-!
Verification development for the lttng-analyses event-correlation engine.

The Python sources under scrutiny are
  src/linuxautomaton/linuxautomaton/syscalls.py   (SyscallsStateProvider)
  src/linuxautomaton/linuxautomaton/statedump.py  (StatedumpStateProvider)
  src/linuxautomaton/linuxautomaton/common.py     (get_disk)
  src/LTTngAnalyzes/irq.py                        (Interrupt)
together with the data-model classes of src/old/LTTngAnalyzes/common.py
(Process, FD, FDType, IRQ, IORequest, SyscallConsts).  The module
linuxautomaton/sv.py is not in the source tree; the few members of it the
code above touches (the pid default of Process, the chrono fd history, the
latency fields of Syscall, IO_SYSCALLS) are modelled from the specification
and are marked as such in their doc comments.

Modelling conventions, applied uniformly:
 * Python dicts become insertion-ordered association lists (`Dict` below).
   Assignment replaces an existing binding in place, otherwise appends,
   like CPython dicts.  `del` removes the binding.
 * Python ints become `Int`; timestamps are `Int` as well so that the
   subtractions of the source keep Python semantics.
 * A Python statement that raises is modelled with `Except PyErr`;
   code paths the claims never exercise and that would raise KeyError on a
   missing table entry are modelled with a default value (`getD`), noted
   at each site.
 * Mutable objects reached through several references (the FD objects held
   by the current-syscall record) are represented by the pair of the owning
   process id and the fd number, and every mutation is routed through the
   state, which gives the same observable final states as the reference
   mutation of the source.
 * An IORequest object is fully built before it is appended to an interval
   list; the source appends first and mutates the shared object afterwards,
   which yields the same final list contents.
-/

set_option linter.unusedVariables false

namespace LA

/-- Exception outcomes of the modelled Python code. -/
inductive PyErr where
  | attributeError
  | runtimeError
  | keyError
  | stopIteration
  deriving DecidableEq, Repr

/-! ## Insertion-ordered association lists (Python dict) -/

/-- A Python dict: insertion-ordered association list. -/
def Dict (K : Type) (V : Type) : Type := List (K × V)

namespace Dict

variable {K V : Type} [DecidableEq K]

/-- The empty dict. -/
def empty : Dict K V := []

instance : Inhabited (Dict K V) := ⟨empty⟩

instance [Repr K] [Repr V] : Repr (Dict K V) :=
  inferInstanceAs (Repr (List (K × V)))

instance [DecidableEq V] : DecidableEq (Dict K V) :=
  inferInstanceAs (DecidableEq (List (K × V)))

/-- `d[k]`, as an option. -/
def find? : Dict K V → K → Option V
  | [], _ => none
  | (k', v) :: t, k => if k' = k then some v else find? t k

/-- `k in d`. -/
def contains (d : Dict K V) (k : K) : Bool := (d.find? k).isSome

/-- `d[k] = v`: replace in place if the key is bound, else append
(CPython dicts preserve insertion order). -/
def insert : Dict K V → K → V → Dict K V
  | [], k, v => [(k, v)]
  | (k', v') :: t, k, v =>
      if k' = k then (k, v) :: t else (k', v') :: insert t k v

/-- `del d[k]` (dicts bind a key at most once, so removing every
occurrence agrees with removing the binding). -/
def erase (d : Dict K V) (k : K) : Dict K V :=
  d.filter (fun p => p.1 ≠ k)

/-- `d.keys()`, in insertion order. -/
def keys (d : Dict K V) : List K := d.map Prod.fst

/-- `d.values()`, in insertion order. -/
def values (d : Dict K V) : List V := d.map Prod.snd

/-- `len(d) != 0`. -/
def nonempty (d : Dict K V) : Bool := !d.isEmpty

end Dict

/-! ## Trace events (external input contract, section 6 of the spec) -/

/-- A typed event field value. -/
inductive EVal where
  | i (n : Int)
  | s (str : String)
  deriving DecidableEq, Repr

/-- A trace event: name, timestamp, named fields; the stream-event-context
pid used by `_fix_context_pid` is carried separately, matching the
babeltrace scope distinction. -/
structure Event where
  name : String := ""
  timestamp : Int := 0
  fields : Dict String EVal := []
  ctxPid : Option Int := none
  deriving Repr

namespace Event

/-- Field lookup, `event[key]` as an option. -/
def get? (e : Event) (f : String) : Option EVal := e.fields.find? f

/-- `key in event.keys()`. -/
def has (e : Event) (f : String) : Bool := (e.get? f).isSome

/-- Integer field read.  The source raises KeyError on a missing field;
the claims only read fields that are present, a missing or non-integer
field is modelled as 0. -/
def int (e : Event) (f : String) : Int :=
  match e.get? f with
  | some (.i n) => n
  | _ => 0

/-- String field read, same convention as `Event.int`. -/
def str (e : Event) (f : String) : String :=
  match e.get? f with
  | some (.s s) => s
  | _ => ""

end Event

/-! ## Data model (classes of src/old/LTTngAnalyzes/common.py) -/

/-- Address families of the Python socket module on Linux. -/
def AF_UNSPEC : Int := 0
def AF_UNIX : Int := 1
def AF_INET : Int := 2
def AF_INET6 : Int := 10

/-- src/linuxautomaton/linuxautomaton/common.py line 37. -/
def O_CLOEXEC : Int := 0o2000000

/-- class FDType of src/old/LTTngAnalyzes/common.py. -/
inductive FDType where
  | unknown
  | disk
  | net
  | maybe_net
  deriving DecidableEq, Repr

instance : Inhabited FDType := ⟨.unknown⟩

/-- class IORequest of src/old/LTTngAnalyzes/common.py:
constants IO_SYSCALL/OP_OPEN/... become plain integers, the constructor
defaults are reproduced field by field.  The proc and fd references are
represented by the owning tid and the fd number. -/
structure IORequest where
  iotype : Option Int := none
  size : Option Int := none
  duration : Option Int := none
  operation : Option Int := none
  name : Option String := none
  begin_ : Option Int := none
  end_ : Option Int := none
  proc : Option Int := none
  fd : Option Int := none
  dirty : Int := 0
  page_alloc : Int := 0
  page_free : Int := 0
  page_written : Int := 0
  woke_kswapd : Bool := false
  page_cleared : Int := 0
  deriving DecidableEq, Repr

namespace IORequest
def IO_SYSCALL : Int := 1
def IO_BLOCK : Int := 2
def IO_NET : Int := 3
def OP_OPEN : Int := 1
def OP_READ : Int := 2
def OP_WRITE : Int := 3
def OP_CLOSE : Int := 4
def OP_SYNC : Int := 5
end IORequest

instance : Inhabited IORequest := ⟨{}⟩

/-- One completed per-name syscall sample, built by
`_per_tid_syscall_exit` (sv.SyscallEvent). -/
structure SyscallEvent where
  ret : Int := 0
  entry_ts : Int := 0
  exit_ts : Int := 0
  duration : Int := 0
  deriving DecidableEq, Repr

/-- class Syscall of src/old/LTTngAnalyzes/common.py carries name and
count; the min/max/total_duration/rq members used by
`_per_tid_syscall_exit` live in the missing module sv.
Modelled from the spec: the Latency Accumulator of section 2 is an online
statistic with count, min, max, sum and raw samples; min starts unset
(None) and max at 0, matching the comparisons of the source. -/
structure Syscall where
  name : String := ""
  count : Int := 0
  min : Option Int := none
  max : Int := 0
  total_duration : Int := 0
  rq : List SyscallEvent := []
  deriving DecidableEq, Repr

instance : Inhabited Syscall := ⟨{}⟩

/-- class FD of src/old/LTTngAnalyzes/common.py.  The Python attribute
`open` is a Lean keyword and is written `open_`.  Note the class has no
`name` attribute, which matters to `merge_fd_dict`. -/
structure FD where
  filename : String := ""
  fd : Int := -1
  family : Int := AF_UNSPEC
  fdtype : FDType := .unknown
  parent : Int := -1
  net_read : Int := 0
  net_write : Int := 0
  disk_read : Int := 0
  disk_write : Int := 0
  unk_read : Int := 0
  unk_write : Int := 0
  read : Int := 0
  write : Int := 0
  open_ : Int := 0
  close : Int := 0
  cloexec : Int := 0
  iorequests : List IORequest := []
  deriving DecidableEq, Repr

instance : Inhabited FD := ⟨{}⟩

/-- One timestamped entry of the chronological fd history.
Modelled from the spec: the statedump reconciler and the fd tracker
enrich a chronological FD history with a timestamped entry holding the
filename and fd type known at that moment (sv.Process.track_chrono_fd is
not under src/); `merge_fd_dict` reads the latest entry and fixes its
filename, so entries are kept in append order. -/
structure ChronoEntry where
  ts : Int := 0
  filename : String := ""
  fdtype : FDType := .unknown
  deriving DecidableEq, Repr

/-- The value of a `count` key of the current-syscall record: an integer
for most syscalls, the empty string for recvmsg/sendmsg. -/
inductive CountV where
  | int (n : Int)
  | str (s : String)
  deriving DecidableEq, Repr

/-- The per-thread in-flight syscall record (the Python dict
`current_syscall`).  Each optional field is one possible key of the dict;
a key is present exactly when the field is `some`.  The `fd`, `fd_in` and
`fd_out` keys hold references to FD objects; they are represented as
(owning tid, fd number) pairs, see the conventions above. -/
structure CS where
  name : Option String := none
  start : Option Int := none
  filename : Option String := none
  cloexec : Option Int := none
  family : Option Int := none
  fdtype : Option FDType := none
  fd : Option (Int × Int) := none
  fd_in : Option (Int × Int) := none
  fd_out : Option (Int × Int) := none
  count : Option CountV := none
  iorequest : Option IORequest := none
  pages_written : Option Int := none
  dirty : Option Int := none
  pages_allocated : Option Int := none
  pages_cleared : Option (List Int) := none
  page_free : Option Int := none
  wakeup_kswapd : Option Int := none
  deriving DecidableEq, Repr

namespace CS

/-- Python dict truthiness: `not current_syscall` holds exactly when no
key is present. -/
def isEmpty (c : CS) : Bool :=
  c.name.isNone && c.start.isNone && c.filename.isNone && c.cloexec.isNone &&
  c.family.isNone && c.fdtype.isNone && c.fd.isNone && c.fd_in.isNone &&
  c.fd_out.isNone && c.count.isNone && c.iorequest.isNone &&
  c.pages_written.isNone && c.dirty.isNone && c.pages_allocated.isNone &&
  c.pages_cleared.isNone && c.page_free.isNone && c.wakeup_kswapd.isNone

end CS

instance : Inhabited CS := ⟨{}⟩

/-- class Process of src/old/LTTngAnalyzes/common.py.
Deviations taken from the behaviour of the code under
src/linuxautomaton (whose sv module is not in the tree) and marked
Modelled from the spec: `pid` defaults to None — the correlators test
`t.pid is not None` — and the process carries the chronological fd
history `chrono_fds` next to `fds`. -/
structure Process where
  tid : Int := -1
  pid : Option Int := none
  comm : String := ""
  fds : Dict Int FD := []
  closed_fds : Dict String FD := []
  chrono_fds : Dict Int (List ChronoEntry) := []
  current_syscall : CS := {}
  net_read : Int := 0
  net_write : Int := 0
  disk_read : Int := 0
  disk_write : Int := 0
  unk_read : Int := 0
  unk_write : Int := 0
  read : Int := 0
  write : Int := 0
  prev_tid : Int := -1
  syscalls : Dict String Syscall := []
  total_syscalls : Int := 0
  iorequests : List IORequest := []
  deriving DecidableEq, Repr

instance : Inhabited Process := ⟨{}⟩

namespace Process

/-- sv.Process.track_chrono_fd.  Modelled from the spec: appends a
timestamped entry carrying filename and fd type to the per-fd
chronological history. -/
def track_chrono_fd (p : Process) (fd : Int) (filename : String)
    (fdtype : FDType) (ts : Int) : Process :=
  let hist := (p.chrono_fds.find? fd).getD []
  { p with chrono_fds :=
      p.chrono_fds.insert fd (hist ++ [⟨ts, filename, fdtype⟩]) }

end Process

/-- class CPU of src/old/LTTngAnalyzes/common.py, restricted to the
member the correlators read; current_tid is None when the scheduler
collaborator has not yet identified the running thread (the code under
src/linuxautomaton tests `c.current_tid is None`). -/
structure CPUState where
  current_tid : Option Int := none
  deriving DecidableEq, Repr

/-- class Disk of src/old/LTTngAnalyzes/common.py (block-request members
kept abstract as integers; the claims touch only name and prettyname). -/
structure Disk where
  name : String := ""
  prettyname : String := ""
  nr_sector : Int := 0
  nr_requests : Int := 0
  completed_requests : Int := 0
  request_time : Int := 0
  deriving DecidableEq, Repr

/-- The shared automaton state threaded through the providers:
state.cpus, state.tids, state.syscalls, state.pending_syscalls,
state.disks.  The source stores the global tally under the string key
`total` of the same dict as the per-name Syscall objects; it is split
into `syscalls_total` here because the dict would otherwise be
heterogeneous.  pending_syscalls holds Process references, represented
by tid. -/
structure State where
  cpus : Dict Int CPUState := []
  tids : Dict Int Process := []
  syscalls : Dict String Syscall := []
  syscalls_total : Int := 0
  pending_syscalls : List Int := []
  disks : Dict Int Disk := []
  deriving DecidableEq, Repr

namespace State

/-- `self.tids[t]` where the source assumes presence (a missing entry
would raise KeyError in Python; every theorem below instantiates states
where the entry exists). -/
def getProc (s : State) (t : Int) : Process := (s.tids.find? t).getD {}

/-- `self.tids[t] = p`. -/
def setProc (s : State) (t : Int) (p : Process) : State :=
  { s with tids := s.tids.insert t p }

/-- Read-modify-write of one process. -/
def updProc (s : State) (t : Int) (f : Process → Process) : State :=
  s.setProc t (f (s.getProc t))

end State

/-! ## Syscall name catalogs (class SyscallConsts of
src/old/LTTngAnalyzes/common.py) -/

namespace SyscallConsts

def INET_FAMILIES : List Int := [AF_INET, AF_INET6]
def DISK_FAMILIES : List Int := [AF_UNIX]
def DISK_OPEN_SYSCALLS : List String :=
  ["sys_open", "syscall_entry_open", "sys_openat", "syscall_entry_openat"]
def NET_OPEN_SYSCALLS : List String :=
  ["sys_accept", "syscall_entry_accept", "sys_socket", "syscall_entry_socket"]
def DUP_OPEN_SYSCALLS : List String :=
  ["sys_fcntl", "syscall_entry_fcntl", "sys_dup2", "syscall_entry_dup2"]
def SYNC_SYSCALLS : List String :=
  ["sys_sync", "syscall_entry_sync",
   "sys_sync_file_range", "syscall_entry_sync_file_range",
   "sys_fsync", "syscall_entry_fsync",
   "sys_fdatasync", "syscall_entry_fdatasync"]
def OPEN_SYSCALLS : List String :=
  DISK_OPEN_SYSCALLS ++ NET_OPEN_SYSCALLS ++ DUP_OPEN_SYSCALLS
def CLOSE_SYSCALLS : List String := ["sys_close", "syscall_entry_close"]
def READ_SYSCALLS : List String :=
  ["sys_read", "syscall_entry_read",
   "sys_recvmsg", "syscall_entry_recvmsg",
   "sys_recvfrom", "syscall_entry_recvfrom",
   "sys_splice", "syscall_entry_splice",
   "sys_readv", "syscall_entry_readv",
   "sys_sendfile64", "syscall_entry_sendfile64"]
def WRITE_SYSCALLS : List String :=
  ["sys_write", "syscall_entry_write",
   "sys_sendmsg", "syscall_entry_sendmsg",
   "sys_sendto", "syscall_entry_sendto",
   "sys_writev", "syscall_entry_writev"]
def GENERIC_NAMES : List String := ["unknown", "socket"]

/-- Modelled from the spec: sv.SyscallConsts.IO_SYSCALLS (module sv is
not under src/).  The spec classifies syscalls into open, read, write,
sync and other, producing I/O request intervals for the former
families, and the close family moves descriptors between tables; the
catalog is the union of those name lists. -/
def IO_SYSCALLS : List String :=
  OPEN_SYSCALLS ++ CLOSE_SYSCALLS ++ READ_SYSCALLS ++ WRITE_SYSCALLS ++
  SYNC_SYSCALLS

end SyscallConsts

/-- common.get_v4_addr_str decodes the v4addr field bytes into dotted
form; the decoding itself is outside the correlation logic and the
model carries the decoded string directly in the field. -/
def get_v4_addr_str (e : Event) : String := e.str "v4addr"

/-! ## SyscallsStateProvider (src/linuxautomaton/linuxautomaton/syscalls.py) -/

namespace Syscalls

open SyscallConsts

/-- get_fd_type, lines 50-60. -/
def get_fd_type (name : String) (family : Int) : FDType :=
  if name ∈ NET_OPEN_SYSCALLS ∧ family ∈ INET_FAMILIES then .net
  else if name ∈ NET_OPEN_SYSCALLS ∧ family ∈ DISK_FAMILIES then .disk
  else if name ∈ DISK_OPEN_SYSCALLS then .disk
  else .unknown

/-- global_syscall_entry, lines 62-71. -/
def global_syscall_entry (s : State) (name : String) : State :=
  let sc :=
    match s.syscalls.find? name with
    | none => ({ name := name, count := 0 } : Syscall)
    | some sc => sc
  let sc := { sc with count := sc.count + 1 }
  { s with syscalls := s.syscalls.insert name sc,
           syscalls_total := s.syscalls_total + 1 }

/-- override_name, lines 73-81. -/
def override_name (name : String) (e : Event) : String :=
  if name ∈ ["syscall_entry_epoll_ctl"] then
    if e.int "op" = 1 then name ++ "-ADD"
    else if e.int "op" = 2 then name ++ "-DEL"
    else if e.int "op" = 3 then name ++ "-MODE"
    else name
  else name

/-- per_tid_syscall_entry, lines 83-103. -/
def per_tid_syscall_entry (s : State) (name : String) (cpu_id : Int)
    (e : Event) : State :=
  match s.cpus.find? cpu_id with
  | none => s
  | some c =>
    match c.current_tid with
    | none => s
    | some tid =>
      let t := s.getProc tid
      let t := { t with total_syscalls := t.total_syscalls + 1 }
      let name := override_name name e
      let sc :=
        match t.syscalls.find? name with
        | none => ({ name := name } : Syscall)
        | some sc => sc
      let sc := { sc with count := sc.count + 1 }
      let t := { t with syscalls := t.syscalls.insert name sc }
      let t := { t with current_syscall :=
        { t.current_syscall with name := some name, start := some e.timestamp } }
      global_syscall_entry (s.setProc tid t) name

/-- The owning process of a thread: lines such as 217-218 — if the
thread knows a distinct pid, the parent process entry is used. -/
def parentTid (t : Process) (cur : Int) : Int :=
  match t.pid with
  | some pid => if t.tid ≠ pid then pid else cur
  | none => cur

/-- close_fd, lines 155-169.  The moved descriptor object is written
into the closed table before its close count is set to 1; the open
table entry is then popped. -/
def close_fd (p : Process) (fd : Int) : Process :=
  let fdo := (p.fds.find? fd).getD {}
  let filename := fdo.filename
  if filename ∉ GENERIC_NAMES ∧ p.closed_fds.contains filename then
    let f := (p.closed_fds.find? filename).getD {}
    let f := { f with
      close := f.close + 1,
      net_read := f.net_read + fdo.net_read,
      disk_read := f.disk_read + fdo.disk_read,
      net_write := f.net_write + fdo.net_write,
      disk_write := f.disk_write + fdo.disk_write }
    { p with closed_fds := p.closed_fds.insert filename f,
             fds := p.fds.erase fd }
  else
    { p with closed_fds := p.closed_fds.insert filename { fdo with close := 1 },
             fds := p.fds.erase fd }

/-- get_fd, lines 233-244. -/
def get_fd (p : Process) (fd : Int) (ts : Int) : FD × Process :=
  match p.fds.find? fd with
  | none =>
      let f : FD := { fd := fd, filename := "unknown (origin not found)" }
      let p := { p with fds := p.fds.insert fd f }
      (f, p.track_chrono_fd fd f.filename f.fdtype ts)
  | some f => (f, p.track_chrono_fd fd f.filename f.fdtype ts)

/-- track_open, lines 105-153.  `owner` is the process object passed as
`proc` (the parent of the current thread), `cur` the current tid whose
record is rebuilt. -/
def track_open (s : State) (name : String) (owner cur : Int) (e : Event) :
    State :=
  let s := s.updProc cur (fun t => { t with current_syscall := {} })
  let step :=
    if name ∈ DISK_OPEN_SYSCALLS then
      let s := s.updProc cur (fun t => { t with current_syscall :=
        { t.current_syscall with filename := some (e.str "filename") } })
      if (e.int "flags").toNat &&& O_CLOEXEC.toNat = O_CLOEXEC.toNat then
        some (s.updProc cur (fun t => { t with current_syscall :=
          { t.current_syscall with cloexec := some 1 } }))
      else some s
    else if name ∈ ["sys_accept", "syscall_entry_accept",
                    "sys_accept4", "syscall_entry_accept4"] then
      if e.has "family" ∧ e.int "family" = AF_INET then
        let ipport := get_v4_addr_str e ++ ":" ++ toString (e.int "sport")
        some (s.updProc cur (fun t => { t with current_syscall :=
          { t.current_syscall with filename := some ipport } }))
      else
        some (s.updProc cur (fun t => { t with current_syscall :=
          { t.current_syscall with filename := some "socket" } }))
    else if name ∈ NET_OPEN_SYSCALLS then
      some (s.updProc cur (fun t => { t with current_syscall :=
        { t.current_syscall with filename := some "socket" } }))
    else if name ∈ ["sys_dup2", "syscall_entry_dup2"] then
      let newfd := e.int "newfd"
      let oldfd := e.int "oldfd"
      let s :=
        if (s.getProc owner).fds.contains newfd then
          s.updProc owner (fun p => close_fd p newfd)
        else s
      if (s.getProc owner).fds.contains oldfd then
        let src := ((s.getProc owner).fds.find? oldfd).getD {}
        some (s.updProc cur (fun t => { t with current_syscall :=
          { t.current_syscall with filename := some src.filename,
                                   fdtype := some src.fdtype } }))
      else
        some (s.updProc cur (fun t => { t with current_syscall :=
          { t.current_syscall with filename := some "" } }))
    else if name ∈ ["sys_fcntl", "syscall_entry_fcntl"] then
      if e.int "cmd" ≠ 0 then none   -- early return, lines 134-135
      else
        let oldfd := e.int "fd"
        if (s.getProc owner).fds.contains oldfd then
          let src := ((s.getProc owner).fds.find? oldfd).getD {}
          some (s.updProc cur (fun t => { t with current_syscall :=
            { t.current_syscall with filename := some src.filename,
                                     fdtype := some src.fdtype } }))
        else
          some (s.updProc cur (fun t => { t with current_syscall :=
            { t.current_syscall with filename := some "" } }))
    else some s
  match step with
  | none => s.updProc cur (fun t => { t with current_syscall := {} })
  | some s =>
    let family :=
      if name ∈ NET_OPEN_SYSCALLS ∧ e.has "family" then e.int "family"
      else AF_UNSPEC
    s.updProc cur (fun t => { t with current_syscall :=
      { t.current_syscall with
          family := some family,
          name := some name,
          start := some e.timestamp,
          fdtype := some (get_fd_type name family) } })

/-- track_close, lines 171-183. -/
def track_close (s : State) (name : String) (owner cur : Int) (e : Event) :
    State :=
  let fd := e.int "fd"
  if ¬ (s.getProc owner).fds.contains fd then s
  else
    let filename := (((s.getProc owner).fds.find? fd).getD {}).filename
    let s := s.updProc cur (fun t => { t with current_syscall :=
      { filename := some filename, name := some name,
        start := some e.timestamp } })
    s.updProc owner (fun p => close_fd p fd)

/-- _fix_context_pid, lines 185-204.  Source line 197 compares
(`t.pid == event[pid]`) instead of assigning, so nothing happens there;
the assignment on line 199 only runs when the context pid differs from
the tid, and line 204 installs a fresh parent entry unconditionally. -/
def fix_context_pid (s : State) (e : Event) (tidKey : Int) : State :=
  match e.ctxPid with
  | none => s
  | some ctxpid =>
    if e.has "pid" then s
    else
      let t := s.getProc tidKey
      match t.pid with
      | some _ => s
      | none =>
        if ctxpid ≠ t.tid then
          let t := { t with pid := some ctxpid }
          let p : Process :=
            { tid := ctxpid, pid := some ctxpid, comm := t.comm }
          (s.setProc tidKey t).setProc ctxpid p
        else s

/-- track_fds, lines 206-231. -/
def track_fds (s : State) (name : String) (e : Event) (cpu_id : Int) :
    State :=
  match s.cpus.find? cpu_id with
  | none => s
  | some c =>
    match c.current_tid with
    | none => s
    | some cur =>
      let s := fix_context_pid s e cur
      let owner := parentTid (s.getProc cur) cur
      if name ∈ OPEN_SYSCALLS then track_open s name owner cur e
      else if name ∈ CLOSE_SYSCALLS then track_close s name owner cur e
      else if name ∈ ["sys_connect", "syscall_entry_connect"] ∧
                e.has "family" then
        if e.int "family" = AF_INET then
          let fdn := e.int "fd"
          let (f, ownerP) := get_fd (s.getProc owner) fdn e.timestamp
          let ipport := get_v4_addr_str e ++ ":" ++ toString (e.int "dport")
          let ownerP := { ownerP with fds :=
            (ownerP.fds.insert fdn { f with filename := ipport }) }
          s.setProc owner ownerP
        else s
      else s

/-- track_sync, lines 246-265. -/
def track_sync (s : State) (name : String) (e : Event) (cpu_id : Int) :
    State :=
  match s.cpus.find? cpu_id with
  | none => s
  | some c =>
    match c.current_tid with
    | none => s
    | some cur =>
      let s := { s with pending_syscalls := s.pending_syscalls ++ [cur] }
      let owner := parentTid (s.getProc cur) cur
      let s := s.updProc cur (fun t => { t with current_syscall :=
        { t.current_syscall with name := some name,
                                 start := some e.timestamp } })
      if name ∉ ["sys_sync", "syscall_entry_sync"] then
        let fdn := e.int "fd"
        let (f, ownerP) := get_fd (s.getProc owner) fdn e.timestamp
        let s := s.setProc owner ownerP
        s.updProc cur (fun t => { t with current_syscall :=
          { t.current_syscall with fd := some (owner, fdn),
                                   filename := some f.filename } })
      else s

/-- track_read_write, lines 267-315. -/
def track_read_write (s : State) (name : String) (e : Event)
    (cpu_id : Int) : State :=
  match s.cpus.find? cpu_id with
  | none => s
  | some c =>
    match c.current_tid with
    | none => s
    | some cur =>
      let s := { s with pending_syscalls := s.pending_syscalls ++ [cur] }
      let owner := parentTid (s.getProc cur) cur
      let s := s.updProc cur (fun t => { t with current_syscall :=
        { t.current_syscall with name := some name,
                                 start := some e.timestamp } })
      if name ∈ ["sys_splice", "syscall_entry_splice"] then
        let (fin, p1) := get_fd (s.getProc owner) (e.int "fd_in") e.timestamp
        let s := s.setProc owner p1
        let (_, p2) := get_fd (s.getProc owner) (e.int "fd_out") e.timestamp
        let s := s.setProc owner p2
        s.updProc cur (fun t => { t with current_syscall :=
          { t.current_syscall with
              fd_in := some (owner, e.int "fd_in"),
              fd_out := some (owner, e.int "fd_out"),
              count := some (.int (e.int "len")),
              filename := some fin.filename } })
      else if name ∈ ["sys_sendfile64", "syscall_entry_sendfile64"] then
        let (fin, p1) := get_fd (s.getProc owner) (e.int "in_fd") e.timestamp
        let s := s.setProc owner p1
        let (_, p2) := get_fd (s.getProc owner) (e.int "out_fd") e.timestamp
        let s := s.setProc owner p2
        s.updProc cur (fun t => { t with current_syscall :=
          { t.current_syscall with
              fd_in := some (owner, e.int "in_fd"),
              fd_out := some (owner, e.int "out_fd"),
              count := some (.int (e.int "count")),
              filename := some fin.filename } })
      else
        let fdn := e.int "fd"
        let (f, ownerP) := get_fd (s.getProc owner) fdn e.timestamp
        let s := s.setProc owner ownerP
        let s := s.updProc cur (fun t => { t with current_syscall :=
          { t.current_syscall with fd := some (owner, fdn) } })
        let cnt : CountV :=
          if name ∈ ["sys_writev", "syscall_entry_writev",
                     "sys_readv", "syscall_entry_readv"] then
            .int (e.int "vlen")
          else if name ∈ ["sys_recvfrom", "syscall_entry_recvfrom"] then
            .int (e.int "size")
          else if name ∈ ["sys_recvmsg", "syscall_entry_recvmsg",
                          "sys_sendmsg", "syscall_entry_sendmsg"] then
            .str ""
          else if name ∈ ["sys_sendto", "syscall_entry_sendto"] then
            .int (e.int "len")
          else if e.has "count" then .int (e.int "count")
          else .int 0   -- try/except fallback, lines 308-313
        s.updProc cur (fun t => { t with current_syscall :=
          { t.current_syscall with count := some cnt,
                                   filename := some f.filename } })

/-- add_tid_fd, lines 317-346.  When the filename matches a closed
descriptor, the source increments the open count of that shared object
in place (the object then lives in both tables); the model writes the
incremented object back into the closed table and keeps the open-table
copy authoritative for later mutations. -/
def add_tid_fd (s : State) (e : Event) (cur : Int) : State :=
  let ret := e.int "ret"
  let owner := parentTid (s.getProc cur) cur
  let cs := (s.getProc cur).current_syscall
  let name := cs.filename.getD ""
  let reuse := name ∉ GENERIC_NAMES ∧
    (s.getProc owner).closed_fds.contains name
  let fd0 :=
    if reuse then
      let f := ((s.getProc owner).closed_fds.find? name).getD {}
      { f with open_ := f.open_ + 1 }
    else
      let f : FD := { filename := name }
      let f :=
        if cs.name.getD "" ∈ NET_OPEN_SYSCALLS then
          let f := { f with family := cs.family.getD AF_UNSPEC }
          if f.family ∈ INET_FAMILIES then { f with fdtype := .net } else f
        else f
      { f with open_ := 1 }
  let s :=
    if reuse then
      s.updProc owner (fun p =>
        { p with closed_fds := p.closed_fds.insert name fd0 })
    else s
  if ret < 0 then s   -- lines 338-341: the open count mutation persists
  else
    let fd0 := { fd0 with fd := ret }
    let fd0 := if cs.cloexec.isSome then { fd0 with cloexec := 1 } else fd0
    let s := s.updProc owner (fun p =>
      { p with fds := p.fds.insert ret fd0 })
    s.updProc owner (fun p =>
      p.track_chrono_fd ret fd0.filename fd0.fdtype e.timestamp)

/-- read_append, lines 348-361, on the objects it mutates. -/
def read_append (f : FD) (p : Process) (count : Int) (rq : IORequest) :
    FD × Process × IORequest :=
  let rq := { rq with operation := some IORequest.OP_READ,
                      size := some count }
  let (f, p) :=
    if f.fdtype ∈ [FDType.net, FDType.maybe_net] then
      ({ f with net_read := f.net_read + count },
       { p with net_read := p.net_read + count })
    else if f.fdtype = .disk then
      ({ f with disk_read := f.disk_read + count },
       { p with disk_read := p.disk_read + count })
    else
      ({ f with unk_read := f.unk_read + count },
       { p with unk_read := p.unk_read + count })
  ({ f with read := f.read + count }, { p with read := p.read + count }, rq)

/-- write_append, lines 363-376. -/
def write_append (f : FD) (p : Process) (count : Int) (rq : IORequest) :
    FD × Process × IORequest :=
  let rq := { rq with operation := some IORequest.OP_WRITE,
                      size := some count }
  let (f, p) :=
    if f.fdtype ∈ [FDType.net, FDType.maybe_net] then
      ({ f with net_write := f.net_write + count },
       { p with net_write := p.net_write + count })
    else if f.fdtype = .disk then
      ({ f with disk_write := f.disk_write + count },
       { p with disk_write := p.disk_write + count })
    else
      ({ f with unk_write := f.unk_write + count },
       { p with unk_write := p.unk_write + count })
  ({ f with write := f.write + count }, { p with write := p.write + count },
   rq)

/-- Routes one read_append/write_append call through the state: the FD
object is fetched through its reference, the mutated objects are written
back (an unresolvable reference leaves the state unchanged, matching a
detached object whose mutations are unobservable). -/
def applyRW (isRead : Bool) (s : State) (fdref : Option (Int × Int))
    (procTid : Int) (count : Int) (rq : IORequest) : State × IORequest :=
  match fdref with
  | none => (s, rq)
  | some (ro, n) =>
    let p := s.getProc procTid
    match (s.getProc ro).fds.find? n with
    | some f =>
        let (f', p', rq') :=
          if isRead then read_append f p count rq
          else write_append f p count rq
        let s := s.setProc procTid p'
        (s.updProc ro (fun q => { q with fds := q.fds.insert n f' }), rq')
    | none =>
        let (_, p', rq') :=
          if isRead then read_append {} p count rq
          else write_append {} p count rq
        (s.setProc procTid p', rq')

/-- Stores the (shared) iorequest object back into the record of `cur`. -/
def setRecordRq (s : State) (cur : Int) (rq : IORequest) : State :=
  s.updProc cur (fun t => { t with current_syscall :=
    { t.current_syscall with iorequest := some rq } })

/-- track_read_write_return, lines 378-400. -/
def track_read_write_return (s : State) (name : String) (ret : Int)
    (cur : Int) : State :=
  if ret < 0 then s
  else
    let owner := parentTid (s.getProc cur) cur
    let cs := (s.getProc cur).current_syscall
    let rq := cs.iorequest.getD {}
    if name ∈ ["sys_splice", "syscall_entry_splice",
               "sys_sendfile64", "syscall_entry_sendfile64"] then
      let r1 := applyRW true s cs.fd_in owner ret rq
      let r2 := applyRW false r1.1 cs.fd_out owner ret r1.2
      setRecordRq r2.1 cur r2.2
    else if name ∈ READ_SYSCALLS then
      if ret > 0 then
        let r1 := applyRW true s cs.fd owner ret rq
        setRecordRq r1.1 cur r1.2
      else s
    else if name ∈ WRITE_SYSCALLS then
      if ret > 0 then
        let r1 := applyRW false s cs.fd owner ret rq
        setRecordRq r1.1 cur r1.2
      else s
    else s

/-- Appends a finished request object to the interval list of
descriptor `n` of thread `ro` (track_rw_latency, lines 410-413). -/
def appendRqFd (s : State) (ro n : Int) (rq : IORequest) : State :=
  s.updProc ro (fun q =>
    match q.fds.find? n with
    | some f => { q with fds :=
        (q.fds.insert n { f with iorequests := f.iorequests ++ [rq] }) }
    | none => q)

/-- Stores the entry-time fd type on the freshly created descriptor
(_process_syscall_exit, lines 487-489). -/
def fdtypeFix (s : State) (k n : Int) (fdt : FDType) : State :=
  s.updProc k (fun q =>
    match q.fds.find? n with
    | some f0 => { q with fds :=
        (q.fds.insert n { f0 with fdtype := fdt }) }
    | none => q)

/-- track_rw_latency, lines 402-431.  The source appends the request
object to the interval list of the descriptor before filling the
side-channel fields of the same shared object; the model finishes the
object first and then appends, giving equal final list contents. -/
def track_rw_latency (s : State) (name : String) (cur : Int) (ts : Int) :
    State :=
  let cs := (s.getProc cur).current_syscall
  let rq0 := cs.iorequest.getD {}
  let st := cs.start.getD 0
  let rq : IORequest :=
    { rq0 with
        duration := some (ts - st), begin_ := some st, end_ := some ts,
        proc := some cur,
        fd := (match cs.fd with
               | some (_, n) => some n
               | none =>
                 match cs.fd_in with
                 | some (_, n) => some n
                 | none => rq0.fd),
        page_written := (match cs.pages_written with
                         | some v => v
                         | none => rq0.page_written),
        dirty := (match cs.dirty with
                  | some v => v
                  | none => rq0.dirty),
        page_alloc := (match cs.pages_allocated with
                       | some v => v
                       | none => rq0.page_alloc),
        page_free := (match cs.page_free with
                      | some v => v
                      | none => rq0.page_free),
        woke_kswapd := (if cs.wakeup_kswapd.isSome then true
                        else rq0.woke_kswapd),
        page_cleared := (if name ∈ SYNC_SYSCALLS ∧ cs.pages_cleared.isSome
                         then ((cs.pages_cleared.getD []).length : Int)
                         else rq0.page_cleared) }
  let s := setRecordRq s cur rq
  match cs.fd with
  | some (ro, n) => appendRqFd s ro n rq
  | none => s

/-- _per_tid_syscall_exit, lines 433-448. -/
def per_tid_syscall_exit (s : State) (name : String) (ret : Int)
    (e : Event) (cur : Int) : State :=
  let t := s.getProc cur
  if ¬ t.syscalls.contains name then s
  else
    let entry_ts := t.current_syscall.start.getD 0
    let d := e.timestamp - entry_ts
    let sev : SyscallEvent :=
      { ret := ret, entry_ts := entry_ts, exit_ts := e.timestamp,
        duration := d }
    let sc := (t.syscalls.find? name).getD {}
    let sc := if sc.min.isNone ∨ sc.min.getD 0 > d then
                { sc with min := some d } else sc
    let sc := if sc.max < d then { sc with max := d } else sc
    let sc := { sc with total_duration := sc.total_duration + d,
                        rq := sc.rq ++ [sev] }
    s.setProc cur { t with syscalls := t.syscalls.insert name sc }

/-- _process_syscall_entry, lines 450-459. -/
def process_syscall_entry (s : State) (e : Event) : State :=
  let name := e.name
  let cpu_id := e.int "cpu_id"
  let s := per_tid_syscall_entry s name cpu_id e
  let s := track_fds s name e cpu_id
  let s := if name ∈ READ_SYSCALLS ∨ name ∈ WRITE_SYSCALLS then
             track_read_write s name e cpu_id
           else s
  if name ∈ SYNC_SYSCALLS then track_sync s name e cpu_id else s

/-- Lines 502-504: the record of the current thread is cleared and the
thread is dropped from the pending list. -/
def finishExit (s : State) (cur : Int) : State :=
  let s := s.updProc cur (fun t => { t with current_syscall := {} })
  if cur ∈ s.pending_syscalls then
    { s with pending_syscalls := s.pending_syscalls.erase cur }
  else s

/-- _process_syscall_exit, lines 461-504. -/
def process_syscall_exit (s : State) (e : Event) : State :=
  let cpu_id := e.int "cpu_id"
  match s.cpus.find? cpu_id with
  | none => s
  | some c =>
    match c.current_tid with
    | none => s
    | some cur =>
      let cs0 := (s.getProc cur).current_syscall
      if cs0.isEmpty then s
      else
        let name := cs0.name.getD ""
        let ret := e.int "ret"
        let s := per_tid_syscall_exit s name ret e cur
        if name ∉ SyscallConsts.IO_SYSCALLS then s
        else
          let s := setRecordRq s cur
            { iotype := some IORequest.IO_SYSCALL, name := some name }
          if name ∈ OPEN_SYSCALLS then
            let s := add_tid_fd s e cur
            if ret < 0 then s   -- lines 483-484: no clearing on failure
            else
              let t := s.getProc cur
              let s := s.setProc cur (get_fd t ret e.timestamp).2
              let s := s.updProc cur (fun t => { t with current_syscall :=
                { t.current_syscall with fd := some (cur, ret),
                                         count := some (.int 0) } })
              let fdt := ((s.getProc cur).current_syscall.fdtype).getD .unknown
              let s := fdtypeFix s cur ret fdt
              let s := s.updProc cur (fun t => { t with current_syscall :=
                { t.current_syscall with iorequest :=
                    (some { (t.current_syscall.iorequest.getD {}) with
                              operation := some IORequest.OP_OPEN }) } })
              finishExit (track_rw_latency s name cur e.timestamp) cur
          else if name ∈ READ_SYSCALLS ∨ name ∈ WRITE_SYSCALLS then
            let s := track_read_write_return s name ret cur
            finishExit (track_rw_latency s name cur e.timestamp) cur
          else if name ∈ SYNC_SYSCALLS then
            let s := s.updProc cur (fun t => { t with current_syscall :=
              { t.current_syscall with iorequest :=
                  (some { (t.current_syscall.iorequest.getD {}) with
                            operation := some IORequest.OP_SYNC }) } })
            let s := track_rw_latency s name cur e.timestamp
            let s :=
              if name ∈ ["sys_sync", "syscall_entry_sync"] then
                s.updProc cur (fun t => { t with iorequests :=
                  t.iorequests ++ [t.current_syscall.iorequest.getD {}] })
              else s
            finishExit s cur
          else finishExit s cur

/-- _process_writeback_pages_written, lines 506-514. -/
def process_writeback_pages_written (s : State) (e : Event) : State :=
  s.cpus.values.foldl
    (fun acc c =>
      match c.current_tid with
      | none => acc
      | some tid =>
        let cs := (acc.getProc tid).current_syscall
        if cs.isEmpty then acc
        else acc.updProc tid (fun t => { t with current_syscall :=
          { t.current_syscall with pages_written := some (e.int "pages") } }))
    s

/-- _process_mm_vmscan_wakeup_kswapd, lines 516-527.  The guard on line
525 reads `if current_syscall: return` — the handler acts only on an
EMPTY record, as written in the source. -/
def process_mm_vmscan_wakeup_kswapd (s : State) (e : Event) : State :=
  let cpu_id := e.int "cpu_id"
  match s.cpus.find? cpu_id with
  | none => s
  | some c =>
    match c.current_tid with
    | none => s
    | some cur =>
      let cs := (s.getProc cur).current_syscall
      if ¬ cs.isEmpty then s
      else s.updProc cur (fun t => { t with current_syscall :=
        { t.current_syscall with wakeup_kswapd := some 1 } })

/-- _process_mm_page_free, lines 529-547.  The guard on line 541 reads
`if current_syscall: continue` — only EMPTY records get past it, again
as written in the source, which makes the increment below it dead
code. -/
def process_mm_page_free (s : State) (e : Event) : State :=
  s.cpus.values.foldl
    (fun acc c =>
      match c.current_tid with
      | none => acc
      | some tid =>
        let p := acc.getProc tid
        let target :=
          if p.comm = "kswapd0" ∧ p.prev_tid > 0 then p.prev_tid else tid
        let cs := (acc.getProc target).current_syscall
        if ¬ cs.isEmpty then acc
        else if cs.wakeup_kswapd.isSome then
          if cs.page_free.isSome then
            acc.updProc target (fun t => { t with current_syscall :=
              { t.current_syscall with page_free :=
                  (some (t.current_syscall.page_free.getD 0 + 1)) } })
          else
            acc.updProc target (fun t => { t with current_syscall :=
              { t.current_syscall with page_free := some 1 } })
        else acc)
    s

end Syscalls

/-! ## common.py of src/linuxautomaton/linuxautomaton -/

/-- kdev_major_minor, lines 41-46 (device numbers are non-negative). -/
def kdev_major_minor (dev : Int) : String :=
  let major := dev.toNat >>> 20
  let minor := dev.toNat &&& ((1 <<< 20) - 1)
  "(" ++ toString major ++ "," ++ toString minor ++ ")"

/-- get_disk, src/linuxautomaton/linuxautomaton/common.py lines 49-57.
On an unknown device the source builds a Disk and sets its name, then
executes `dev.prettyname = kdev_major_minor(dev)` — an attribute
assignment on the integer argument `dev`, which raises AttributeError
in Python; the next line would store the whole table (`disks[dev] =
disks`) rather than the new disk.  The known-device branch returns the
stored entry.  (The earlier revision of the function, in
src/old/LTTngAnalyzes/common.py lines 303-311, assigns
`d.prettyname` and stores `d`.) -/
def get_disk (dev : Int) (disks : Dict Int Disk) :
    Except PyErr (Disk × Dict Int Disk) :=
  if ¬ disks.contains dev then .error .attributeError
  else .ok ((disks.find? dev).getD {}, disks)

/-! ## StatedumpStateProvider
(src/linuxautomaton/linuxautomaton/statedump.py) -/

namespace Statedump

/-- The open-table half of merge_fd_dict, lines 48-69, one child entry
at a time (the source collects every key into `toremove` and deletes
them from the child afterwards; the caller below clears the child).  On
collision with a parent descriptor whose filename is empty, the source
reads `parent.chrono_fds[fd]` — KeyError when absent — and
`next(reversed(chrono_fd))` — StopIteration when empty — before fixing
the filename of the latest history entry. -/
def mergeFds : List (Int × FD) → Process → Process →
    Except PyErr Process
  | [], _, parent => .ok parent
  | (fd, f) :: rest, child, parent =>
    if ¬ parent.fds.contains fd then
      let parent := { parent with
        fds := parent.fds.insert fd f,
        chrono_fds :=
          (parent.chrono_fds.insert fd ((child.chrono_fds.find? fd).getD [])) }
      mergeFds rest child parent
    else
      let pf := (parent.fds.find? fd).getD {}
      let fixRes : Except PyErr Process :=
        if pf.filename = "" then
          match parent.chrono_fds.find? fd with
          | none => .error .keyError
          | some [] => .error .stopIteration
          | some hist =>
            let fixedLast :=
              match hist.getLast? with
              | some le => { le with filename := f.filename }
              | none => { filename := f.filename }
            .ok { parent with
              fds := (parent.fds.insert fd { pf with filename := f.filename }),
              chrono_fds :=
                (parent.chrono_fds.insert fd (hist.dropLast ++ [fixedLast])) }
        else .ok parent
      match fixRes with
      | .error err => .error err
      | .ok parent =>
        let pf := (parent.fds.find? fd).getD {}
        let pf := { pf with
          net_read := pf.net_read + f.net_read,
          net_write := pf.net_write + f.net_write,
          disk_read := pf.disk_read + f.disk_read,
          disk_write := pf.disk_write + f.disk_write }
        mergeFds rest child { parent with fds := parent.fds.insert fd pf }

/-- merge_fd_dict, lines 47-81.  The open-table half uses the
`toremove` pattern and completes; the closed-table half of the source
(lines 70-81) deletes from `p.closed_fds` WHILE iterating over its
keys.  Under Python 3 the first loop step runs and the next call on the
key iterator raises `RuntimeError: dictionary changed size during
iteration`; when the first key collides with a parent entry, the body
itself raises first, because `parent.closed_fds[fd].name` reads a
`name` attribute the FD class does not define (AttributeError).  So any
child with a non-empty closed table makes the merge raise; the
exception aborts the provider, so the error result carries no partial
state. -/
def merge_fd_dict (p parent : Process) : Except PyErr (Process × Process) :=
  match mergeFds p.fds p parent with
  | .error err => .error err
  | .ok parent =>
    let cleared : Process := { p with
      fds := [],
      chrono_fds := p.fds.keys.foldl (fun m k => m.erase k) p.chrono_fds }
    match p.closed_fds with
    | [] => .ok (cleared, parent)
    | (k, _) :: _ =>
      if parent.closed_fds.contains k then .error .attributeError
      else .error .runtimeError

/-- _process_lttng_statedump_process_state, lines 83-110. -/
def process_state (s : State) (e : Event) : Except PyErr State :=
  let tid := e.int "tid"
  let pid := e.int "pid"
  let name := e.str "name"
  let p := if s.tids.contains tid then s.getProc tid
           else ({ tid := tid } : Process)
  let p := { p with pid := some pid, comm := name }
  let s := s.setProc tid p
  if pid ≠ tid then
    let parent :=
      if ¬ s.tids.contains pid then
        ({ tid := pid, pid := some pid, comm := name } : Process)
      else s.getProc pid
    let s := s.setProc pid parent
    match merge_fd_dict (s.getProc tid) (s.getProc pid) with
    | .error err => .error err
    | .ok (p', parent') => .ok ((s.setProc tid p').setProc pid parent')
  else .ok s

/-- _process_lttng_statedump_file_descriptor, lines 112-137.  On an
already-known fd the source runs `proc.fds[fd].filename = filename` —
an unconditional overwrite (the comment in the source reads `just fix
the filename`) — and never touches cloexec. -/
def file_descriptor (s : State) (e : Event) : State :=
  let pid := e.int "pid"
  let fd := e.int "fd"
  let filename := e.str "filename"
  let cloexec :=
    (e.int "flags").toNat &&& O_CLOEXEC.toNat = O_CLOEXEC.toNat
  let proc := if s.tids.contains pid then s.getProc pid
              else ({ pid := some pid, tid := pid } : Process)
  let proc :=
    if ¬ proc.fds.contains fd then
      { proc with fds := (proc.fds.insert fd
          { filename := filename, fd := fd,
            cloexec := if cloexec then 1 else 0 }) }
    else
      let f := (proc.fds.find? fd).getD {}
      { proc with fds := (proc.fds.insert fd { f with filename := filename }) }
  let fdtype := ((proc.fds.find? fd).getD {}).fdtype
  s.setProc pid (proc.track_chrono_fd fd filename fdtype e.timestamp)

/-- _process_lttng_statedump_block_device, lines 139-141. -/
def block_device (s : State) (e : Event) : Except PyErr State :=
  match get_disk (e.int "dev") s.disks with
  | .error err => .error err
  | .ok (d, disks) =>
      .ok { s with disks :=
        (disks.insert (e.int "dev") { d with prettyname := e.str "diskname" }) }

end Statedump

/-! ## Interrupt correlator (src/LTTngAnalyzes/irq.py) -/

/-- class IRQ of src/old/LTTngAnalyzes/common.py (the `ret` attribute is
attached dynamically by hard_exit). -/
structure IRQRec where
  nr : Int := -1
  irqclass : Int := 0
  start_ts : Int := -1
  stop_ts : Int := -1
  raise_ts : Int := -1
  cpu_id : Int := -1
  ret : Option Int := none
  deriving DecidableEq, Repr

namespace IRQRec
def HARD_IRQ : Int := 1
def SOFT_IRQ : Int := 2
end IRQRec

instance : Inhabited IRQRec := ⟨{}⟩

/-- The per-number aggregate dict built by Interrupt.init_irq,
irq.py lines 20-31. -/
structure IrqEntry where
  list : List IRQRec := []
  max : Int := 0
  min : Int := -1
  count : Int := 0
  total : Int := 0
  raise_max : Int := 0
  raise_min : Int := -1
  raise_count : Int := 0
  raise_total : Int := 0
  deriving DecidableEq, Repr

/-- init_irq, lines 20-31. -/
def init_irq : IrqEntry := {}

instance : Inhabited IrqEntry := ⟨init_irq⟩

/-- The min/max duration filter carried on `args` (microseconds);
`args.max and ...` treats a missing filter as falsy, so 0 means
disabled. -/
structure IrqArgs where
  max : Int := 0
  min : Int := 0
  deriving DecidableEq, Repr

/-- The dict `self.irq` of class Interrupt, keys initialized in
lines 9-18 (the raise-latency entry is initialized but never used by
the class and is omitted). -/
structure IrqState where
  hard_count : Int := 0
  soft_count : Int := 0
  hard_per_cpu : Dict Int (Option IRQRec) := []
  soft_per_cpu : Dict Int (Option IRQRec) := []
  raise_per_cpu : Dict Int (Option (Int × Int)) := []
  names : Dict Int String := []
  hard_irqs : Dict Int IrqEntry := []
  soft_irqs : Dict Int IrqEntry := []
  irq_list : List IRQRec := []
  deriving DecidableEq, Repr

namespace Interrupt

/-- Which of the two per-class key families of the dict is addressed
(hard-per-cpu/hard-irqs versus soft-per-cpu/soft-irqs). -/
inductive WhichIrq where
  | hard
  | soft
  deriving DecidableEq, Repr

def slotMap (st : IrqState) : WhichIrq → Dict Int (Option IRQRec)
  | .hard => st.hard_per_cpu
  | .soft => st.soft_per_cpu

def setSlotMap (st : IrqState) (w : WhichIrq)
    (m : Dict Int (Option IRQRec)) : IrqState :=
  match w with
  | .hard => { st with hard_per_cpu := m }
  | .soft => { st with soft_per_cpu := m }

def irqMap (st : IrqState) : WhichIrq → Dict Int IrqEntry
  | .hard => st.hard_irqs
  | .soft => st.soft_irqs

def setIrqMap (st : IrqState) (w : WhichIrq) (m : Dict Int IrqEntry) :
    IrqState :=
  match w with
  | .hard => { st with hard_irqs := m }
  | .soft => { st with soft_irqs := m }

/-- entry, lines 33-40. -/
def entry (e : Event) (irqclass : Int) (idfield : String) : IRQRec :=
  { irqclass := irqclass, start_ts := e.timestamp,
    cpu_id := e.int "cpu_id", nr := e.int idfield }

/-- hard_entry, lines 42-47. -/
def hard_entry (st : IrqState) (e : Event) : IrqState :=
  let cpu_id := e.int "cpu_id"
  let st := { st with
    names := st.names.insert (e.int "irq") (e.str "name"),
    hard_count := st.hard_count + 1 }
  { st with hard_per_cpu :=
      (st.hard_per_cpu.insert cpu_id (some (entry e IRQRec.HARD_IRQ "irq"))) }

/-- soft_entry, lines 49-58: the fresh record is stored in the per-CPU
slot; when the pending-raise slot of this CPU holds a raise of the same
vector, its timestamp is copied into the record as raise_ts and the
raise slot is cleared, otherwise the raise slot is left alone. -/
def soft_entry (st : IrqState) (e : Event) : IrqState :=
  let cpu_id := e.int "cpu_id"
  let st := { st with soft_count := st.soft_count + 1 }
  let i := entry e IRQRec.SOFT_IRQ "vec"
  match st.raise_per_cpu.find? cpu_id with
  | some (some (rts, rvec)) =>
    if rvec = e.int "vec" then
      { st with
        soft_per_cpu :=
          (st.soft_per_cpu.insert cpu_id (some { i with raise_ts := rts })),
        raise_per_cpu := st.raise_per_cpu.insert cpu_id none }
    else { st with soft_per_cpu := st.soft_per_cpu.insert cpu_id (some i) }
  | _ => { st with soft_per_cpu := st.soft_per_cpu.insert cpu_id (some i) }

/-- compute_stats, lines 60-78. -/
def compute_stats (irq_entry : IrqEntry) (i : IRQRec) : IrqEntry :=
  let duration := i.stop_ts - i.start_ts
  let irq_entry := if duration > irq_entry.max then
    { irq_entry with max := duration } else irq_entry
  let irq_entry := if irq_entry.min = -1 ∨ duration < irq_entry.min then
    { irq_entry with min := duration } else irq_entry
  let irq_entry := { irq_entry with count := irq_entry.count + 1,
                                    total := irq_entry.total + duration }
  if i.raise_ts = -1 then irq_entry
  else
    let latency := i.start_ts - i.raise_ts
    let irq_entry := if latency > irq_entry.raise_max then
      { irq_entry with raise_max := latency } else irq_entry
    let irq_entry :=
      if irq_entry.raise_min = -1 ∨ latency < irq_entry.raise_min then
        { irq_entry with raise_min := latency } else irq_entry
    { irq_entry with raise_count := irq_entry.raise_count + 1,
                     raise_total := irq_entry.raise_total + latency }

/-- The three outcomes of Interrupt.exit: None (no or mismatched
record), False (filtered out), or the completed record. -/
inductive ExitRes where
  | skipped
  | filtered
  | recorded (i : IRQRec)
  deriving DecidableEq, Repr

/-- exit, lines 80-102.  On id mismatch the slot is cleared and nothing
is recorded.  On match the stop timestamp is written into the record —
still held by the slot — and a missing aggregate entry is initialized;
the min/max filter then returns False WITHOUT clearing the slot;
otherwise the record is appended to the per-number list, the aggregate
is updated and the record is appended to the global list. -/
def exit (st : IrqState) (e : Event) (idfield : String) (w : WhichIrq)
    (args : IrqArgs) : IrqState × ExitRes :=
  let cpu_id := e.int "cpu_id"
  match (slotMap st w).find? cpu_id with
  | none => (st, .skipped)
  | some none => (st, .skipped)
  | some (some i) =>
    if i.nr ≠ e.int idfield then
      (setSlotMap st w ((slotMap st w).insert cpu_id none), .skipped)
    else
      let i := { i with stop_ts := e.timestamp }
      let st := setSlotMap st w ((slotMap st w).insert cpu_id (some i))
      let st :=
        if ¬ (irqMap st w).contains i.nr then
          setIrqMap st w ((irqMap st w).insert i.nr init_irq)
        else st
      let duration := i.stop_ts - i.start_ts
      if args.max ≠ 0 ∧ duration > args.max * 1000 then (st, .filtered)
      else if args.min ≠ 0 ∧ duration < args.min * 1000 then (st, .filtered)
      else
        let en := ((irqMap st w).find? i.nr).getD init_irq
        let en := { en with list := en.list ++ [i] }
        let en := compute_stats en i
        let st := setIrqMap st w ((irqMap st w).insert i.nr en)
        ({ st with irq_list := st.irq_list ++ [i] }, .recorded i)

/-- hard_exit, lines 104-108: on a recorded exit the source attaches
`ret` to the shared record object, which is visible through the slot,
the per-number list and the global list; the model rewrites the three
copies. -/
def hard_exit (st : IrqState) (e : Event) (args : IrqArgs) : IrqState :=
  let (st, r) := exit st e "irq" .hard args
  match r with
  | .recorded i =>
    let i' := { i with ret := some (e.int "ret") }
    let st := { st with hard_per_cpu :=
      (st.hard_per_cpu.insert i.cpu_id (some i')) }
    let st := { st with irq_list := st.irq_list.dropLast ++ [i'] }
    let en := (st.hard_irqs.find? i.nr).getD init_irq
    let en := { en with list := en.list.dropLast ++ [i'] }
    { st with hard_irqs := st.hard_irqs.insert i.nr en }
  | _ => st

/-- soft_exit, lines 110-111. -/
def soft_exit (st : IrqState) (e : Event) (args : IrqArgs) : IrqState :=
  (exit st e "vec" .soft args).1

/-- soft_raise, lines 113-115. -/
def soft_raise (st : IrqState) (e : Event) : IrqState :=
  { st with raise_per_cpu :=
      (st.raise_per_cpu.insert (e.int "cpu_id")
        (some (e.timestamp, e.int "vec"))) }

end Interrupt

/-! ## Derived vocabulary used by the theorems -/

/-- Every completed I/O request interval stored in the entity lists of
one process: the interval lists of its open descriptors, of its closed
descriptors, and the process-level list fed by sys_sync. -/
def Process.allRequests (p : Process) : List IORequest :=
  (p.fds.values.map FD.iorequests).flatten ++
  (p.closed_fds.values.map FD.iorequests).flatten ++ p.iorequests

/-- Every completed I/O request interval stored anywhere in the state. -/
def State.allRequests (s : State) : List IORequest :=
  (s.tids.values.map Process.allRequests).flatten

/-- A correctly completed interval for an exit at time ts of a syscall
entered at time st: the duration is the exit timestamp minus the
recorded entry timestamp, and the bounds are recorded. -/
def goodRq (st ts : Int) (rq : IORequest) : Prop :=
  rq.duration = some (ts - st) ∧ rq.begin_ = some st ∧ rq.end_ = some ts

/-- Between two states, every stored I/O request is either an old one
or satisfies P (used to chase the syscall-exit pipeline). -/
def ReqsBounded (s s' : State) (P : IORequest → Prop) : Prop :=
  ∀ rq ∈ s'.allRequests, rq ∈ s.allRequests ∨ P rq

/-- Whether the pending-raise slot of this CPU holds a raise of the
given vector (irq.py lines 54-56). -/
def Interrupt.raiseMatches (st : IrqState) (cpu vec : Int) : Bool :=
  match st.raise_per_cpu.find? cpu with
  | some (some (_, rvec)) => rvec = vec
  | _ => false

/-- The raise timestamp the soft-IRQ entry will copy into its record:
the pending raise of the same vector on this CPU, else the class
default -1. -/
def Interrupt.pendingRaiseTs (st : IrqState) (cpu vec : Int) : Int :=
  match st.raise_per_cpu.find? cpu with
  | some (some (rts, rvec)) => if rvec = vec then rts else -1
  | _ => -1

/-- The min/max duration filter of Interrupt.exit, lines 94-98 (True
when the sample is suppressed). -/
def Interrupt.filterRejects (args : IrqArgs) (duration : Int) : Bool :=
  if args.max ≠ 0 ∧ duration > args.max * 1000 then true
  else if args.min ≠ 0 ∧ duration < args.min * 1000 then true
  else false

/-! ## Concrete states and events used by the claim theorems -/

/-- C2: a thread mid sys_getpid (a syscall outside the I/O catalog). -/
def c2_state : State :=
  { cpus := [(0, { current_tid := some 42 })],
    tids := [(42, { tid := 42,
                    current_syscall := { name := some "sys_getpid",
                                         start := some 100 },
                    syscalls := [("sys_getpid", { name := "sys_getpid",
                                                  count := 1 })] })] }

/-- C2: the matching syscall exit event. -/
def c2_exit : Event :=
  { timestamp := 105, fields := [("cpu_id", .i 0), ("ret", .i 0)] }

/-- C2/C3 witness: a thread mid sys_read on fd 5. -/
def c2w_state : State :=
  { cpus := [(0, { current_tid := some 42 })],
    tids := [(42, { tid := 42,
                    fds := [(5, { fd := 5, filename := "w.txt",
                                  fdtype := .disk })],
                    current_syscall := { name := some "sys_read",
                                         start := some 110,
                                         fd := some (42, 5),
                                         count := some (.int 1000),
                                         filename := some "w.txt" },
                    syscalls := [("sys_read", { name := "sys_read",
                                                count := 1 })] })] }

/-- C2/C3 witness: the read returns 1000 at t=115. -/
def c2w_exit : Event :=
  { timestamp := 115, fields := [("cpu_id", .i 0), ("ret", .i 1000)] }

/-- C3 witness: a thread whose in-flight record is empty. -/
def c3_idle_state : State :=
  { cpus := [(0, { current_tid := some 7 })],
    tids := [(7, { tid := 7 })] }

/-- The completed read request that processing c2w_exit on c2w_state
appends to descriptor 5 of thread 42. -/
def c3_read_rq : IORequest :=
  { iotype := some 1, size := some 1000, duration := some 5,
    operation := some 2, name := some "sys_read", begin_ := some 110,
    end_ := some 115, proc := some 42, fd := some 5 }

/-- C4: thread 100 with one closed descriptor; the statedump
process-state record below reparents it to pid 1. -/
def c4_state : State :=
  { tids := [(100, { tid := 100,
                     closed_fds := [("f", { filename := "f",
                                            read := 7 })] })] }

/-- C4: the same child when the parent already has a closed descriptor
of the same filename (the collision path). -/
def c4_state_collision : State :=
  { tids := [(100, { tid := 100,
                     closed_fds := [("f", { filename := "f",
                                            read := 7 })] }),
             (1, { tid := 1, pid := some 1,
                   closed_fds := [("f", { filename := "f" })] })] }

/-- C4: thread 100 with one OPEN descriptor only (the half of the merge
that completes). -/
def c4_state_open : State :=
  { tids := [(100, { tid := 100,
                     fds := [(3, { fd := 3, filename := "a",
                                   disk_read := 5 })],
                     chrono_fds := [(3, [{ ts := 1,
                                           filename := "a" }])] })] }

/-- C4: the process-state statedump record with tid 100 and pid 1. -/
def c4_event : Event :=
  { name := "lttng_statedump_process_state", timestamp := 5,
    fields := [("tid", .i 100), ("pid", .i 1), ("name", .s "w")] }

/-- C5: cpu 0 runs thread 42, which is mid sys_read (its in-flight
record is non-empty). -/
def c5_state : State :=
  { cpus := [(0, { current_tid := some 42 })],
    tids := [(42, { tid := 42,
                    current_syscall := { name := some "sys_read",
                                         start := some 10 } })] }

/-- C5: the same CPU setup with thread 42 idle. -/
def c5_idle_state : State :=
  { cpus := [(0, { current_tid := some 42 })],
    tids := [(42, { tid := 42 })] }

/-- C5: a page-free event. -/
def c5_page_free : Event := { name := "mm_page_free", timestamp := 20 }

/-- C5: a reclaim-wakeup event on cpu 0. -/
def c5_wakeup : Event :=
  { name := "mm_vmscan_wakeup_kswapd", timestamp := 20,
    fields := [("cpu_id", .i 0)] }

/-- C5: a write-back event reporting 4 pages written. -/
def c5_writeback : Event :=
  { name := "writeback_pages_written", timestamp := 20,
    fields := [("pages", .i 4)] }

/-- C6: soft-IRQ raise of vector 3 on cpu 0 at t=50. -/
def c6_raise3 : Event :=
  { timestamp := 50, fields := [("cpu_id", .i 0), ("vec", .i 3)] }

/-- C6: soft-IRQ raise of vector 5 on cpu 0 at t=55. -/
def c6_raise5 : Event :=
  { timestamp := 55, fields := [("cpu_id", .i 0), ("vec", .i 5)] }

/-- C6: soft-IRQ entry of vector 3 on cpu 0 at t=60. -/
def c6_entry3 : Event :=
  { timestamp := 60, fields := [("cpu_id", .i 0), ("vec", .i 3)] }

/-- C6: soft-IRQ exit of vector 3 on cpu 0 at t=90. -/
def c6_exit3 : Event :=
  { timestamp := 90, fields := [("cpu_id", .i 0), ("vec", .i 3)] }

/-- C6: the specified scenario, raise/entry/exit of vector 3, no
duration filter. -/
def c6_scenario : IrqState :=
  Interrupt.soft_exit
    (Interrupt.soft_entry (Interrupt.soft_raise {} c6_raise3) c6_entry3)
    c6_exit3 {}

/-- C6: the same scenario with an intervening raise of vector 5 between
the raise and the entry of vector 3. -/
def c6_scenario_intervening : IrqState :=
  Interrupt.soft_exit
    (Interrupt.soft_entry
      (Interrupt.soft_raise (Interrupt.soft_raise {} c6_raise3) c6_raise5)
      c6_entry3)
    c6_exit3 {}

/-- C7: cpu 0 holds an in-flight soft IRQ of vector 3 started at
t=100. -/
def c7_state : IrqState :=
  { soft_per_cpu := [(0, some { nr := 3, irqclass := 2, start_ts := 100,
                                cpu_id := 0 })] }

/-- C7: the matching exit at t=6100, so the duration of 6000 ns exceeds
a 5 microsecond maximum filter. -/
def c7_exit : Event :=
  { timestamp := 6100, fields := [("cpu_id", .i 0), ("vec", .i 3)] }

/-- C7: the filtered run. -/
def c7_run : IrqState := Interrupt.soft_exit c7_state c7_exit { max := 5 }

/-- C8: thread 42 current on cpu 0, known to the thread table. -/
def c8_state : State :=
  { cpus := [(0, { current_tid := some 42 })],
    tids := [(42, { tid := 42 })] }

/-- C8: entry of sys_open with filename /tmp/a at t=100. -/
def c8_open_entry : Event :=
  { name := "sys_open", timestamp := 100,
    fields := [("cpu_id", .i 0), ("filename", .s "/tmp/a"),
               ("flags", .i 0)] }

/-- C8: the open returns fd 5 at t=105. -/
def c8_open_exit : Event :=
  { timestamp := 105, fields := [("cpu_id", .i 0), ("ret", .i 5)] }

/-- C8: entry of sys_read on fd 5 for 1000 bytes at t=110. -/
def c8_read_entry : Event :=
  { name := "sys_read", timestamp := 110,
    fields := [("cpu_id", .i 0), ("fd", .i 5), ("count", .i 1000)] }

/-- C8: the read returns 1000 at t=115. -/
def c8_read_exit : Event :=
  { timestamp := 115, fields := [("cpu_id", .i 0), ("ret", .i 1000)] }

/-- C8: the state after the four events of the scenario. -/
def c8_final : State :=
  Syscalls.process_syscall_exit
    (Syscalls.process_syscall_entry
      (Syscalls.process_syscall_exit
        (Syscalls.process_syscall_entry c8_state c8_open_entry)
        c8_open_exit)
      c8_read_entry)
    c8_read_exit

/-- C9: a process about to close fd 3, whose generic filename socket
already keys an entry of the closed table. -/
def c9_proc : Process :=
  { tid := 7,
    fds := [(3, { fd := 3, filename := "socket", net_read := 7 })],
    closed_fds := [("socket", { filename := "socket", net_read := 50,
                                close := 2 })] }

/-- C9 witness: the same situation with a non-generic filename. -/
def c9w_proc : Process :=
  { tid := 7,
    fds := [(3, { fd := 3, filename := "a.txt", net_read := 7,
                  disk_write := 2 })],
    closed_fds := [("a.txt", { filename := "a.txt", net_read := 50,
                               close := 2 })] }

/-- C10: process 5 already holds fd 3 with a set filename and unset
cloexec. -/
def c10_state : State :=
  { tids := [(5, { tid := 5,
                   fds := [(3, { fd := 3, filename := "old",
                                 cloexec := 0 })] })] }

/-- C10: a file-descriptor statedump record for the same fd with a new
filename and the close-on-exec flag set. -/
def c10_event : Event :=
  { name := "lttng_statedump_file_descriptor", timestamp := 9,
    fields := [("pid", .i 5), ("fd", .i 3), ("filename", .s "new"),
               ("flags", .i O_CLOEXEC)] }

namespace Dict

variable {K V : Type} [DecidableEq K]

@[simp] theorem find?_empty (k : K) : (empty : Dict K V).find? k = none := rfl

@[simp] theorem find?_insert_self (d : Dict K V) (k : K) (v : V) :
    (d.insert k v).find? k = some v := by
  induction d with
  | nil => simp [insert, find?]
  | cons h t ih =>
      by_cases hk : h.1 = k
      · simp [insert, hk, find?]
      · simp [insert, hk, find?, ih]

theorem find?_insert_ne (d : Dict K V) (k k' : K) (v : V) (h : k' ≠ k) :
    (d.insert k v).find? k' = d.find? k' := by
  induction d with
  | nil => simp [insert, find?, Ne.symm h]
  | cons hd t ih =>
      obtain ⟨a, b⟩ := hd
      by_cases hk : a = k
      · subst hk
        simp [insert, find?, Ne.symm h]
      · simp only [insert, hk, if_false, find?]
        by_cases hk' : a = k'
        · simp [hk']
        · simp [hk', ih]

@[simp] theorem find?_erase_self (d : Dict K V) (k : K) :
    (d.erase k).find? k = none := by
  induction d with
  | nil => simp [erase, find?]
  | cons hd t ih =>
      by_cases hk : hd.1 = k
      · simpa [erase, hk] using ih
      · simpa [erase, hk, find?] using ih

theorem find?_erase_ne (d : Dict K V) (k k' : K) (h : k' ≠ k) :
    (d.erase k).find? k' = d.find? k' := by
  induction d with
  | nil => simp [erase, find?]
  | cons hd t ih =>
      obtain ⟨a, b⟩ := hd
      by_cases hk : a = k
      · subst hk
        simpa [erase, find?, Ne.symm h, List.filter] using ih
      · by_cases hk' : a = k'
        · subst hk'
          simp [erase, find?, hk, List.filter, Ne.symm h]
        · simpa [erase, find?, hk, hk', List.filter] using ih

theorem mem_values_of_find? {d : Dict K V} {k : K} {v : V}
    (h : d.find? k = some v) : v ∈ d.values := by
  induction d with
  | nil => simp [find?] at h
  | cons hd t ih =>
      obtain ⟨a, b⟩ := hd
      by_cases hk : a = k
      · simp [find?, hk] at h
        simp [values, ← h]
      · simp [find?, hk] at h
        have := ih h
        simp [values] at this ⊢
        exact Or.inr this

theorem values_insert_subset (d : Dict K V) (k : K) (v : V) :
    ∀ w ∈ (d.insert k v).values, w = v ∨ w ∈ d.values := by
  induction d with
  | nil =>
      intro w hw
      simp [insert, values] at hw
      exact Or.inl hw
  | cons hd t ih =>
      intro w hw
      obtain ⟨a, b⟩ := hd
      have hgoal : Dict.values ((a, b) :: t) = b :: Dict.values t := rfl
      by_cases hk : a = k
      · simp only [insert, hk, if_true] at hw
        have hw2 : w ∈ v :: Dict.values t := hw
        rcases List.mem_cons.mp hw2 with h | h
        · exact Or.inl h
        · exact Or.inr (by rw [hgoal]; exact List.mem_cons_of_mem _ h)
      · simp only [insert, hk, if_false] at hw
        have hw2 : w ∈ b :: Dict.values (Dict.insert t k v) := hw
        rcases List.mem_cons.mp hw2 with h | h
        · exact Or.inr (by rw [hgoal, h]; exact List.mem_cons_self _ _)
        · rcases ih w h with h' | h'
          · exact Or.inl h'
          · exact Or.inr (by rw [hgoal]; exact List.mem_cons_of_mem _ h')

theorem values_erase_subset (d : Dict K V) (k : K) :
    ∀ w ∈ (d.erase k).values, w ∈ d.values := by
  intro w hw
  simp only [erase, values, List.mem_map] at hw ⊢
  rcases hw with ⟨p, hp, rfl⟩
  exact ⟨p, (List.mem_filter.mp hp).1, rfl⟩

end Dict

/-! ## Claim theorems -/

/-- C1: the claim states that a disk-table lookup with an unknown
device id materializes a default Disk, stores it under the id and
returns it without raising, idempotently.  The code raises instead: on
an unknown id get_disk assigns a prettyname attribute on the integer
device argument, an AttributeError (and the following line would store
the whole table under the key).  This theorem evaluates the modelled
get_disk at device 2048 against an empty table. -/
theorem C1_get_disk_unknown_device_raises :
    get_disk 2048 Dict.empty = .error .attributeError := by rfl

/-- C8: after open of /tmp/a returning fd 5 at t=100..105 and a read of
1000 bytes on fd 5 over t=110..115, the descriptor stored under fd 5
has read == 1000, carries exactly one read request interval and it has
size 1000 and duration 5, and the read counter of process 42 is
1000. -/
theorem C8_open_read_scenario :
    ((((c8_final.getProc 42).fds.find? 5).getD {}).iorequests.filter
        (fun r => decide (r.operation = some IORequest.OP_READ))).map
      (fun r => (r.size, r.duration)) = [(some 1000, some 5)] ∧
    (((c8_final.getProc 42).fds.find? 5).getD {}).read = 1000 ∧
    (c8_final.getProc 42).read = 1000 := by decide

/-- C5: the claim states that page-free and reclaim-wakeup events
accumulate into the non-empty in-flight record of the current thread of
each CPU.  The guards of both handlers are inverted in the source
(if current_syscall: return / continue): on a thread mid sys_read the
page-free handler changes nothing and the wakeup handler changes
nothing, while on an idle thread the wakeup handler writes the
wakeup_kswapd key into the EMPTY record; only the write-back handler
behaves as claimed.  This theorem evaluates all four facts. -/
theorem C5_page_free_wakeup_guards_inverted :
    Syscalls.process_mm_page_free c5_state c5_page_free = c5_state ∧
    Syscalls.process_mm_vmscan_wakeup_kswapd c5_state c5_wakeup = c5_state ∧
    ((Syscalls.process_mm_vmscan_wakeup_kswapd c5_idle_state
        c5_wakeup).getProc 42).current_syscall =
      { wakeup_kswapd := some 1 } ∧
    ((Syscalls.process_writeback_pages_written c5_state
        c5_writeback).getProc 42).current_syscall.pages_written = some 4 := by
  refine ⟨by decide, by decide, by decide, by decide⟩

/-- C4: the claim states that the statedump process-state merge moves
open and closed descriptor tables of the child into the parent, leaves
both child tables empty and completes without raising.  The closed-fds
half of merge_fd_dict deletes from the dict while iterating over its
keys, so a child with any closed descriptor raises RuntimeError (on a
filename collision the body raises AttributeError even earlier, because
FD has no name attribute); the open half, which collects keys into
toremove first, completes as claimed. -/
theorem C4_merge_raises_on_closed_fds :
    Statedump.process_state c4_state c4_event = .error .runtimeError ∧
    Statedump.process_state c4_state_collision c4_event =
      .error .attributeError ∧
    (Statedump.process_state c4_state_open c4_event).toOption.map
        (fun s => (((s.getProc 100).fds : List (Int × FD)).isEmpty,
                   ((s.getProc 1).fds.find? 3).map FD.disk_read)) =
      some (true, some 5) := by
  refine ⟨by rfl, by rfl, by decide⟩

/-- C10 counterexample: process 5 already holds fd 3 with filename old
and unset cloexec; a statedump fd record carrying filename new and the
cloexec flag OVERWRITES the set filename (the claim says an already-set
filename stays) and does not set the unset cloexec (the claim says an
unset cloexec is set). -/
theorem C10_counterexample :
    (((Statedump.file_descriptor c10_state c10_event).getProc 5).fds.find?
        3).map (fun f => (f.filename, f.cloexec)) = some ("new", 0) ∧
    ¬ ((((Statedump.file_descriptor c10_state c10_event).getProc
          5).fds.find? 3).map FD.filename = some "old") := by
  refine ⟨by decide, by decide⟩

/-- C10 (amended): for a file-descriptor statedump record whose process
and fd already exist, the descriptor filename is unconditionally
overwritten with the filename of the record, cloexec is left untouched,
and a timestamped entry carrying the new filename and the existing fd
type is appended to the chronological FD history of the process. -/
theorem C10_statedump_fd_overwrites_filename (s : State) (e : Event)
    (f : FD)
    (hp : s.tids.contains (e.int "pid") = true)
    (hf : (s.getProc (e.int "pid")).fds.find? (e.int "fd") = some f) :
    (((Statedump.file_descriptor s e).getProc (e.int "pid")).fds.find?
        (e.int "fd") = some { f with filename := e.str "filename" }) ∧
    (((Statedump.file_descriptor s e).getProc
          (e.int "pid")).chrono_fds.find? (e.int "fd") =
      some (((s.getProc (e.int "pid")).chrono_fds.find?
              (e.int "fd")).getD [] ++
            [{ ts := e.timestamp, filename := e.str "filename",
               fdtype := f.fdtype }])) := by
  have hcont : (s.getProc (e.int "pid")).fds.contains (e.int "fd") = true := by
    simp [Dict.contains, hf]
  simp only [State.getProc] at hf hcont ⊢
  constructor <;>
    simp [Statedump.file_descriptor, hp, hcont, hf, State.getProc,
          State.setProc, Process.track_chrono_fd, Dict.find?_insert_self]

/-- C9 counterexample: closing fd 3 whose filename is the generic name
socket, while the closed table already holds an entry keyed socket,
REPLACES that entry (counters 50/2 are lost, the new entry has
net_read 7 and close 1) instead of merging into it as the claim
states. -/
theorem C9_counterexample :
    ((Syscalls.close_fd c9_proc 3).closed_fds.find? "socket").map
        (fun f => (f.net_read, f.close)) = some (7, 1) ∧
    ¬ (((Syscalls.close_fd c9_proc 3).closed_fds.find? "socket").map
        (fun f => (f.net_read, f.close)) = some (57, 3)) ∧
    (Syscalls.close_fd c9_proc 3).fds.find? 3 = none := by
  refine ⟨by decide, by decide, by decide⟩

/-- C9 (amended): closing a descriptor present in the open table always
removes it from the open table and keys it by filename in the closed
table; on a filename collision the byte counters and close count are
summed into the existing entry UNLESS the filename is one of the
generic placeholder names (unknown, socket), in which case the closing
descriptor replaces the existing entry with its close count set to
1. -/
theorem C9_close_moves_and_merges (p : Process) (fd : Int) (f : FD)
    (hf : p.fds.find? fd = some f) :
    ((Syscalls.close_fd p fd).fds.find? fd = none) ∧
    (f.filename ∉ SyscallConsts.GENERIC_NAMES →
      ∀ g, p.closed_fds.find? f.filename = some g →
        (Syscalls.close_fd p fd).closed_fds.find? f.filename =
          some { g with
            close := g.close + 1,
            net_read := g.net_read + f.net_read,
            disk_read := g.disk_read + f.disk_read,
            net_write := g.net_write + f.net_write,
            disk_write := g.disk_write + f.disk_write }) ∧
    (p.closed_fds.find? f.filename = none →
      (Syscalls.close_fd p fd).closed_fds.find? f.filename =
        some { f with close := 1 }) ∧
    (f.filename ∈ SyscallConsts.GENERIC_NAMES →
      (Syscalls.close_fd p fd).closed_fds.find? f.filename =
        some { f with close := 1 }) := by
  refine ⟨?_, ?_, ?_, ?_⟩
  · unfold Syscalls.close_fd
    simp only [hf, Option.getD_some]
    split <;> simp [Dict.find?_erase_self]
  · intro hgen g hg
    unfold Syscalls.close_fd
    simp only [hf, Option.getD_some]
    rw [if_pos ⟨hgen, by simp [Dict.contains, hg]⟩]
    simp [hg, Dict.find?_insert_self]
  · intro hnone
    unfold Syscalls.close_fd
    simp only [hf, Option.getD_some]
    rw [if_neg (by simp [Dict.contains, hnone])]
    simp [Dict.find?_insert_self]
  · intro hgen
    unfold Syscalls.close_fd
    simp only [hf, Option.getD_some]
    rw [if_neg (by simp [hgen])]
    simp [Dict.find?_insert_self]

/-- C9 witness: the amended theorem applied to a close of fd 3 with the
non-generic filename a.txt colliding with an existing closed entry:
counters merge (net_read 50+7, disk_write 0+2, close 2+1). -/
theorem C9_witness :
    ((Syscalls.close_fd c9w_proc 3).fds.find? 3 = none) ∧
    (((Syscalls.close_fd c9w_proc 3).closed_fds.find? "a.txt").map
        (fun g => (g.net_read, g.disk_write, g.close)) =
      some (57, 2, 3)) := by
  have h := C9_close_moves_and_merges c9w_proc 3
    { fd := 3, filename := "a.txt", net_read := 7, disk_write := 2 }
    (by decide)
  refine ⟨h.1, ?_⟩
  rw [h.2.1 (by decide) { filename := "a.txt", net_read := 50, close := 2 }
      (by decide)]
  decide

/-- C7 counterexample: the in-flight soft-IRQ slot of cpu 0 holds the
record of vector 3 after its exit is suppressed by the duration filter;
the claim states the slot is cleared.  The per-IRQ aggregate is freshly
initialized to zeros and the global interval list stays empty. -/
theorem C7_counterexample :
    c7_run.soft_per_cpu.find? 0 =
      some (some { nr := 3, irqclass := 2, start_ts := 100,
                   stop_ts := 6100, raise_ts := -1, cpu_id := 0,
                   ret := none }) ∧
    ¬ (c7_run.soft_per_cpu.find? 0 = some none) ∧
    c7_run.irq_list = [] ∧
    (c7_run.soft_irqs.find? 3).map IrqEntry.count = some 0 := by
  refine ⟨by decide, by decide, by decide, by decide⟩

theorem Interrupt.irq_list_setSlotMap (st : IrqState)
    (w : Interrupt.WhichIrq) (m : Dict Int (Option IRQRec)) :
    (Interrupt.setSlotMap st w m).irq_list = st.irq_list := by
  cases w <;> rfl

theorem Interrupt.irq_list_setIrqMap (st : IrqState)
    (w : Interrupt.WhichIrq) (m : Dict Int IrqEntry) :
    (Interrupt.setIrqMap st w m).irq_list = st.irq_list := by
  cases w <;> rfl

theorem Interrupt.slotMap_setSlotMap_self (st : IrqState)
    (w : Interrupt.WhichIrq) (m : Dict Int (Option IRQRec)) :
    Interrupt.slotMap (Interrupt.setSlotMap st w m) w = m := by
  cases w <;> rfl

theorem Interrupt.slotMap_setIrqMap (st : IrqState)
    (w : Interrupt.WhichIrq) (m : Dict Int IrqEntry) :
    Interrupt.slotMap (Interrupt.setIrqMap st w m) w =
      Interrupt.slotMap st w := by
  cases w <;> rfl

theorem Interrupt.irqMap_setIrqMap_self (st : IrqState)
    (w : Interrupt.WhichIrq) (m : Dict Int IrqEntry) :
    Interrupt.irqMap (Interrupt.setIrqMap st w m) w = m := by
  cases w <;> rfl

theorem Interrupt.irqMap_setSlotMap (st : IrqState)
    (w : Interrupt.WhichIrq) (m : Dict Int (Option IRQRec)) :
    Interrupt.irqMap (Interrupt.setSlotMap st w m) w =
      Interrupt.irqMap st w := by
  cases w <;> rfl

/-- C7 (amended): an interrupt exit matching the in-flight record of
its CPU but whose duration falls outside the configured filter records
no sample — the aggregate counters and interval lists are unchanged
(an all-zero aggregate entry may be freshly created for the id) and the
global interval list is unchanged — but the per-CPU in-flight slot is
NOT cleared: it still holds the record, with its stop timestamp
updated; the slot is only on an id mismatch. -/
theorem C7_filtered_exit_keeps_slot (st : IrqState) (e : Event)
    (idf : String) (w : Interrupt.WhichIrq) (args : IrqArgs) (i : IRQRec)
    (hslot : (Interrupt.slotMap st w).find? (e.int "cpu_id") =
      some (some i))
    (hid : i.nr = e.int idf)
    (hrej : Interrupt.filterRejects args (e.timestamp - i.start_ts) =
      true) :
    (Interrupt.exit st e idf w args).2 = .filtered ∧
    (Interrupt.exit st e idf w args).1.irq_list = st.irq_list ∧
    (Interrupt.slotMap (Interrupt.exit st e idf w args).1 w).find?
        (e.int "cpu_id") =
      some (some { i with stop_ts := e.timestamp }) ∧
    ((Interrupt.irqMap (Interrupt.exit st e idf w args).1 w).find?
        i.nr).map (fun a =>
          (a.count, a.total, a.raise_count, a.raise_total, a.list)) =
      some (((((Interrupt.irqMap st w).find? i.nr).getD init_irq).count,
             (((Interrupt.irqMap st w).find? i.nr).getD init_irq).total,
             (((Interrupt.irqMap st w).find? i.nr).getD
               init_irq).raise_count,
             (((Interrupt.irqMap st w).find? i.nr).getD
               init_irq).raise_total,
             (((Interrupt.irqMap st w).find? i.nr).getD init_irq).list)) := by
  have hfilters : (¬args.max = 0 ∧ e.timestamp - i.start_ts >
        args.max * 1000) ∨
      (¬(¬args.max = 0 ∧ e.timestamp - i.start_ts > args.max * 1000) ∧
       (¬args.min = 0 ∧ e.timestamp - i.start_ts < args.min * 1000)) := by
    unfold Interrupt.filterRejects at hrej
    by_cases hA : args.max ≠ 0 ∧ e.timestamp - i.start_ts >
        args.max * 1000
    · exact Or.inl hA
    · rw [if_neg hA] at hrej
      by_cases hB : args.min ≠ 0 ∧ e.timestamp - i.start_ts <
          args.min * 1000
      · exact Or.inr ⟨hA, hB⟩
      · rw [if_neg hB] at hrej
        exact absurd hrej (by simp)
  unfold Interrupt.exit
  simp only [hslot]
  have hcond : (i.nr ≠ e.int idf) = False := by simp [hid]
  simp only [hcond, if_false]
  obtain h1 | ⟨h1, h2⟩ := hfilters
  case inl =>
    simp only [eq_true h1, if_true]
    set s2 := Interrupt.setSlotMap st w
      ((Interrupt.slotMap st w).insert (e.int "cpu_id")
        (some { i with stop_ts := e.timestamp })) with hs2
    by_cases hcont : (Interrupt.irqMap s2 w).contains i.nr = true
    · have hcf : (¬ (Interrupt.irqMap s2 w).contains i.nr = true) = False :=
        by simp [hcont]
      simp only [hcf, if_false]
      refine ⟨trivial, ?_, ?_, ?_⟩
      · rw [hs2, Interrupt.irq_list_setSlotMap]
      · rw [hs2, Interrupt.slotMap_setSlotMap_self]
        exact Dict.find?_insert_self _ _ _
      · have him : Interrupt.irqMap s2 w = Interrupt.irqMap st w := by
          rw [hs2, Interrupt.irqMap_setSlotMap]
        rw [him]
        rcases hx : (Interrupt.irqMap st w).find? i.nr with _ | a
        · rw [him] at hcont
          simp [Dict.contains, hx] at hcont
        · simp [hx]
    · have hcf : (¬ (Interrupt.irqMap s2 w).contains i.nr = true) = True :=
        by simp [hcont]
      simp only [hcf, if_true]
      refine ⟨trivial, ?_, ?_, ?_⟩
      · rw [Interrupt.irq_list_setIrqMap, hs2, Interrupt.irq_list_setSlotMap]
      · rw [Interrupt.slotMap_setIrqMap, hs2,
            Interrupt.slotMap_setSlotMap_self]
        exact Dict.find?_insert_self _ _ _
      · rw [Interrupt.irqMap_setIrqMap_self, Dict.find?_insert_self]
        have hnone : (Interrupt.irqMap st w).find? i.nr = none := by
          have him : Interrupt.irqMap s2 w = Interrupt.irqMap st w := by
            rw [hs2, Interrupt.irqMap_setSlotMap]
          rw [him] at hcont
          rcases hx : (Interrupt.irqMap st w).find? i.nr with _ | a
          · rfl
          · exact absurd (by simp [Dict.contains, hx]) hcont
        rw [hnone]
        rfl
  case inr =>
    simp only [eq_false h1, if_false, eq_true h2, if_true]
    set s2 := Interrupt.setSlotMap st w
      ((Interrupt.slotMap st w).insert (e.int "cpu_id")
        (some { i with stop_ts := e.timestamp })) with hs2
    by_cases hcont : (Interrupt.irqMap s2 w).contains i.nr = true
    · have hcf : (¬ (Interrupt.irqMap s2 w).contains i.nr = true) = False :=
        by simp [hcont]
      simp only [hcf, if_false]
      refine ⟨trivial, ?_, ?_, ?_⟩
      · rw [hs2, Interrupt.irq_list_setSlotMap]
      · rw [hs2, Interrupt.slotMap_setSlotMap_self]
        exact Dict.find?_insert_self _ _ _
      · have him : Interrupt.irqMap s2 w = Interrupt.irqMap st w := by
          rw [hs2, Interrupt.irqMap_setSlotMap]
        rw [him]
        rcases hx : (Interrupt.irqMap st w).find? i.nr with _ | a
        · rw [him] at hcont
          simp [Dict.contains, hx] at hcont
        · simp [hx]
    · have hcf : (¬ (Interrupt.irqMap s2 w).contains i.nr = true) = True :=
        by simp [hcont]
      simp only [hcf, if_true]
      refine ⟨trivial, ?_, ?_, ?_⟩
      · rw [Interrupt.irq_list_setIrqMap, hs2, Interrupt.irq_list_setSlotMap]
      · rw [Interrupt.slotMap_setIrqMap, hs2,
            Interrupt.slotMap_setSlotMap_self]
        exact Dict.find?_insert_self _ _ _
      · rw [Interrupt.irqMap_setIrqMap_self, Dict.find?_insert_self]
        have hnone : (Interrupt.irqMap st w).find? i.nr = none := by
          have him : Interrupt.irqMap s2 w = Interrupt.irqMap st w := by
            rw [hs2, Interrupt.irqMap_setSlotMap]
          rw [him] at hcont
          rcases hx : (Interrupt.irqMap st w).find? i.nr with _ | a
          · rfl
          · exact absurd (by simp [Dict.contains, hx]) hcont
        rw [hnone]
        rfl

/-- C7 witness: the amended theorem applied to the concrete in-flight
soft IRQ of vector 3 whose 6000 ns duration exceeds the 5 microsecond
maximum filter. -/
theorem C7_witness :
    (Interrupt.exit c7_state c7_exit "vec" Interrupt.WhichIrq.soft
      { max := 5 }).2 = Interrupt.ExitRes.filtered ∧
    (Interrupt.slotMap (Interrupt.exit c7_state c7_exit "vec"
        Interrupt.WhichIrq.soft { max := 5 }).1
      Interrupt.WhichIrq.soft).find? (c7_exit.int "cpu_id") =
      some (some { nr := 3, irqclass := 2, start_ts := 100,
                   stop_ts := 6100, cpu_id := 0 }) := by
  have h := C7_filtered_exit_keeps_slot c7_state c7_exit "vec"
    Interrupt.WhichIrq.soft { max := 5 }
    { nr := 3, irqclass := 2, start_ts := 100, cpu_id := 0 }
    (by decide) (by decide) (by decide)
  exact ⟨h.1, h.2.2.1⟩

/-- C6 counterexample: for the sequence raise(vec=3)@50, raise(vec=5)@55,
entry(vec=3)@60, exit(vec=3)@90 on one CPU with no filter, a raise of
vector 3 preceded the matching entry with no intervening entry for that
vector, so the claim requires a raise-latency sample for vector 3; the
code records none (the pending-raise slot was overwritten by the raise
of vector 5), though the matched exit itself is recorded. -/
theorem C6_counterexample :
    ((c6_scenario_intervening.soft_irqs.find? 3).map
        (fun a => (a.raise_count, a.raise_total, a.count, a.total))) =
      some (0, 0, 1, 30) ∧
    ¬ (((c6_scenario_intervening.soft_irqs.find? 3).map
        (fun a => (a.raise_count, a.raise_total, a.count, a.total))) =
      some (1, 10, 1, 30)) := by
  refine ⟨by decide, by decide⟩

theorem Interrupt.soft_raise_overwrites (st : IrqState) (e : Event) :
    (Interrupt.soft_raise st e).raise_per_cpu.find? (e.int "cpu_id") =
      some (some (e.timestamp, e.int "vec")) := by
  unfold Interrupt.soft_raise
  exact Dict.find?_insert_self _ _ _

theorem Interrupt.soft_entry_consumes_raise (st : IrqState) (e : Event) :
    ((Interrupt.soft_entry st e).soft_per_cpu.find? (e.int "cpu_id") =
      some (some { nr := e.int "vec", irqclass := IRQRec.SOFT_IRQ,
                   start_ts := e.timestamp, cpu_id := e.int "cpu_id",
                   raise_ts := Interrupt.pendingRaiseTs st (e.int "cpu_id")
                     (e.int "vec") })) ∧
    (Interrupt.raiseMatches st (e.int "cpu_id") (e.int "vec") = true →
      (Interrupt.soft_entry st e).raise_per_cpu.find? (e.int "cpu_id") =
        some none) ∧
    (Interrupt.raiseMatches st (e.int "cpu_id") (e.int "vec") = false →
      (Interrupt.soft_entry st e).raise_per_cpu.find? (e.int "cpu_id") =
        st.raise_per_cpu.find? (e.int "cpu_id")) := by
  unfold Interrupt.soft_entry Interrupt.entry Interrupt.pendingRaiseTs
    Interrupt.raiseMatches
  rcases hr : st.raise_per_cpu.find? (e.int "cpu_id") with _ | ⟨_ | ⟨rts, rvec⟩⟩
  · simp [hr, Dict.find?_insert_self]
  · simp [hr, Dict.find?_insert_self]
  · by_cases hv : rvec = e.int "vec"
    · simp [hr, hv, Dict.find?_insert_self]
    · simp [hr, hv, Dict.find?_insert_self]

theorem Interrupt.soft_exit_raise_sample (st : IrqState) (e : Event)
    (i : IRQRec)
    (hslot : st.soft_per_cpu.find? (e.int "cpu_id") = some (some i))
    (hid : i.nr = e.int "vec") :
    ((Interrupt.soft_exit st e {}).soft_irqs.find? i.nr).map
        (fun a => (a.raise_count, a.raise_total)) =
      some (if i.raise_ts = -1 then
              (((st.soft_irqs.find? i.nr).getD init_irq).raise_count,
               ((st.soft_irqs.find? i.nr).getD init_irq).raise_total)
            else
              (((st.soft_irqs.find? i.nr).getD init_irq).raise_count + 1,
               ((st.soft_irqs.find? i.nr).getD init_irq).raise_total +
                 (i.start_ts - i.raise_ts))) := by
  unfold Interrupt.soft_exit Interrupt.exit
  simp only [Interrupt.slotMap, hslot]
  have hcond : (i.nr ≠ e.int "vec") = False := by simp [hid]
  simp only [hcond, if_false]
  simp only [Interrupt.irqMap, Interrupt.setSlotMap, Interrupt.setIrqMap,
    IrqArgs.max, IrqArgs.min]
  simp only [ne_eq, not_true_eq_false, false_and, if_false]
  by_cases hcont : st.soft_irqs.contains i.nr = true
  · have hcf : (¬ st.soft_irqs.contains i.nr = true) = False := by
      simp [hcont]
    simp only [hcf, if_false]
    rcases hx : st.soft_irqs.find? i.nr with _ | a
    · exfalso
      simp [Dict.contains, hx] at hcont
    · simp only [Dict.find?_insert_self, hx, Option.getD_some,
        Option.map_some]
      by_cases hrt : i.raise_ts = -1
      · simp [Interrupt.compute_stats, hrt, apply_ite IrqEntry.raise_count,
          apply_ite IrqEntry.raise_total]
      · simp [Interrupt.compute_stats, hrt, apply_ite IrqEntry.raise_count,
          apply_ite IrqEntry.raise_total]
  · have hcf : (¬ st.soft_irqs.contains i.nr = true) = True := by
      simp [hcont]
    simp only [hcf, if_true]
    have hx : st.soft_irqs.find? i.nr = none := by
      rcases hy : st.soft_irqs.find? i.nr with _ | a
      · rfl
      · exact absurd (by simp [Dict.contains, hy]) hcont
    simp only [Dict.find?_insert_self, hx, Option.getD_none,
      Option.map_some]
    by_cases hrt : i.raise_ts = -1
    · simp [Interrupt.compute_stats, hrt, apply_ite IrqEntry.raise_count,
        apply_ite IrqEntry.raise_total, init_irq]
    · simp [Interrupt.compute_stats, hrt, apply_ite IrqEntry.raise_count,
        apply_ite IrqEntry.raise_total, init_irq]

/-- C6 (amended): the pending-raise slot of a CPU holds only the MOST
RECENT raise (a raise of any vector overwrites it); a soft-IRQ entry
copies the slot into its record as the raised-at mark exactly when the
slot holds the same vector, clearing the slot, and leaves the slot
alone otherwise; a matched unfiltered exit adds one raise-latency
sample, of value entry start minus raise timestamp, exactly when the
record carries a raised-at mark; and the specified scenario
raise@50/entry@60/exit@90 of vector 3 ends with raise_total 10,
count 1 and total 30. -/
theorem C6_soft_raise_latency_semantics :
    (∀ (st : IrqState) (e : Event),
      (Interrupt.soft_raise st e).raise_per_cpu.find? (e.int "cpu_id") =
        some (some (e.timestamp, e.int "vec"))) ∧
    (∀ (st : IrqState) (e : Event),
      ((Interrupt.soft_entry st e).soft_per_cpu.find? (e.int "cpu_id") =
        some (some { nr := e.int "vec", irqclass := IRQRec.SOFT_IRQ,
                     start_ts := e.timestamp, cpu_id := e.int "cpu_id",
                     raise_ts := Interrupt.pendingRaiseTs st
                       (e.int "cpu_id") (e.int "vec") })) ∧
      (Interrupt.raiseMatches st (e.int "cpu_id") (e.int "vec") = true →
        (Interrupt.soft_entry st e).raise_per_cpu.find?
          (e.int "cpu_id") = some none) ∧
      (Interrupt.raiseMatches st (e.int "cpu_id") (e.int "vec") = false →
        (Interrupt.soft_entry st e).raise_per_cpu.find?
          (e.int "cpu_id") = st.raise_per_cpu.find? (e.int "cpu_id"))) ∧
    (∀ (st : IrqState) (e : Event) (i : IRQRec),
      st.soft_per_cpu.find? (e.int "cpu_id") = some (some i) →
      i.nr = e.int "vec" →
      ((Interrupt.soft_exit st e {}).soft_irqs.find? i.nr).map
          (fun a => (a.raise_count, a.raise_total)) =
        some (if i.raise_ts = -1 then
                (((st.soft_irqs.find? i.nr).getD init_irq).raise_count,
                 ((st.soft_irqs.find? i.nr).getD init_irq).raise_total)
              else
                (((st.soft_irqs.find? i.nr).getD
                    init_irq).raise_count + 1,
                 ((st.soft_irqs.find? i.nr).getD init_irq).raise_total +
                   (i.start_ts - i.raise_ts)))) ∧
    ((c6_scenario.soft_irqs.find? 3).map
        (fun a => (a.raise_total, a.count, a.total)) =
      some (10, 1, 30)) := by
  exact ⟨Interrupt.soft_raise_overwrites,
         Interrupt.soft_entry_consumes_raise,
         Interrupt.soft_exit_raise_sample,
         by decide⟩

/-- C6 witness: the exit conjunct of the amended theorem applied to the
state built by the scenario raise and entry, where the in-flight record
of vector 3 carries the raised-at mark 50: one raise sample of latency
10 is added. -/
theorem C6_witness :
    ((Interrupt.soft_exit
        (Interrupt.soft_entry (Interrupt.soft_raise {} c6_raise3)
          c6_entry3)
        c6_exit3 {}).soft_irqs.find? 3).map
      (fun a => (a.raise_count, a.raise_total)) = some (1, 10) := by
  have hc := C6_soft_raise_latency_semantics.2.2.1
    (Interrupt.soft_entry (Interrupt.soft_raise {} c6_raise3) c6_entry3)
    c6_exit3
    { nr := 3, irqclass := 2, start_ts := 60, cpu_id := 0,
      raise_ts := 50 }
    (by decide) (by decide)
  exact hc.trans (by decide)

theorem Syscalls.finishExit_clears (s : State) (cur : Int) :
    ((Syscalls.finishExit s cur).getProc cur).current_syscall = {} := by
  unfold Syscalls.finishExit State.updProc State.setProc State.getProc
  dsimp only
  split <;> simp [Dict.find?_insert_self]

/-- C2 counterexample: thread 42 is mid sys_getpid (a non-I/O syscall,
so its in-flight record is non-empty); after the matching syscall exit
is processed the record is still non-empty — it still names sys_getpid
— though the claim requires the thread to return to idle after every
exit processed in the in-flight state. -/
theorem C2_counterexample :
    ((Syscalls.process_syscall_exit c2_state c2_exit).getProc
      42).current_syscall.isEmpty = false ∧
    ((Syscalls.process_syscall_exit c2_state c2_exit).getProc
      42).current_syscall.name = some "sys_getpid" := by
  refine ⟨by decide, by decide⟩

/-- C2 (amended): each thread holds at most one in-flight record
structurally, and a syscall exit processed while the record is
non-empty empties it again PROVIDED the recorded name is in the I/O
syscall catalog and, for the open family, the return value is
non-negative; exits of non-I/O syscalls (and failed opens) leave the
record in place, to be overwritten by the next entry. -/
theorem C2_exit_clears_record_for_io (s : State) (e : Event)
    (c : CPUState) (cur : Int)
    (hc : s.cpus.find? (e.int "cpu_id") = some c)
    (hcur : c.current_tid = some cur)
    (hne : (s.getProc cur).current_syscall.isEmpty = false)
    (hio : (s.getProc cur).current_syscall.name.getD "" ∈
      SyscallConsts.IO_SYSCALLS)
    (hopen : (s.getProc cur).current_syscall.name.getD "" ∈
        SyscallConsts.OPEN_SYSCALLS → 0 ≤ e.int "ret") :
    ((Syscalls.process_syscall_exit s e).getProc
      cur).current_syscall.isEmpty = true := by
  unfold Syscalls.process_syscall_exit
  simp only [hc, hcur]
  have hne' : ((s.getProc cur).current_syscall.isEmpty = true) = False := by
    simp [hne]
  simp only [hne', if_false]
  have hio' : ((s.getProc cur).current_syscall.name.getD "" ∉
      SyscallConsts.IO_SYSCALLS) = False := by simp [hio]
  simp only [hio', if_false]
  by_cases hO : (s.getProc cur).current_syscall.name.getD "" ∈
      SyscallConsts.OPEN_SYSCALLS
  · simp only [eq_true hO, if_true]
    have h0 := hopen hO
    have hret : (e.int "ret" < 0) = False := eq_false (by omega)
    simp only [hret, if_false]
    rw [Syscalls.finishExit_clears]
    rfl
  · simp only [eq_false hO, if_false]
    by_cases hR : (s.getProc cur).current_syscall.name.getD "" ∈
        SyscallConsts.READ_SYSCALLS ∨
        (s.getProc cur).current_syscall.name.getD "" ∈
        SyscallConsts.WRITE_SYSCALLS
    · simp only [eq_true hR, if_true]
      rw [Syscalls.finishExit_clears]
      rfl
    · simp only [eq_false hR, if_false]
      by_cases hS : (s.getProc cur).current_syscall.name.getD "" ∈
          SyscallConsts.SYNC_SYSCALLS
      · simp only [eq_true hS, if_true]
        split
        · rw [Syscalls.finishExit_clears]
          rfl
        · rw [Syscalls.finishExit_clears]
          rfl
      · simp only [eq_false hS, if_false]
        rw [Syscalls.finishExit_clears]
        rfl

/-- C2 witness: the amended theorem applied to a thread mid sys_read
whose exit returns 1000: the in-flight record is cleared. -/
theorem C2_witness :
    ((Syscalls.process_syscall_exit c2w_state c2w_exit).getProc
      42).current_syscall.isEmpty = true := by
  exact C2_exit_clears_record_for_io c2w_state c2w_exit
    { current_tid := some 42 } 42 (by decide) rfl (by decide) (by decide)
    (by decide)

/-- C10 witness: the amended theorem applied at the concrete statedump
record of the counterexample state. -/
theorem C10_witness :
    (((Statedump.file_descriptor c10_state c10_event).getProc 5).fds.find?
        3 = some { fd := 3, filename := "new", cloexec := 0 }) ∧
    (((Statedump.file_descriptor c10_state c10_event).getProc
          5).chrono_fds.find? 3 =
      some [{ ts := 9, filename := "new", fdtype := .unknown }]) := by
  have h := C10_statedump_fd_overwrites_filename c10_state c10_event
    { fd := 3, filename := "old", cloexec := 0 } (by decide) (by decide)
  exact ⟨h.1, h.2⟩

theorem State.mem_allRequests_iff {s : State} {rq : IORequest} :
    rq ∈ s.allRequests ↔
      ∃ p, p ∈ s.tids.values ∧ rq ∈ p.allRequests := by
  unfold State.allRequests
  simp only [List.mem_flatten, List.mem_map]
  constructor
  · rintro ⟨l, ⟨p, hp, rfl⟩, hrq⟩
    exact ⟨p, hp, hrq⟩
  · rintro ⟨p, hp, hrq⟩
    exact ⟨p.allRequests, ⟨p, hp, rfl⟩, hrq⟩

theorem State.mem_allRequests_getProc {s : State} {cur : Int}
    {rq : IORequest} (h : rq ∈ (s.getProc cur).allRequests) :
    rq ∈ s.allRequests := by
  unfold State.getProc at h
  rcases hx : s.tids.find? cur with _ | p
  · rw [hx] at h
    simp [Process.allRequests, Dict.values] at h
  · rw [hx] at h
    exact State.mem_allRequests_iff.mpr
      ⟨p, Dict.mem_values_of_find? hx, h⟩

theorem State.mem_allRequests_setProc {s : State} {k : Int}
    {p' : Process} {rq : IORequest}
    (h : rq ∈ (s.setProc k p').allRequests) :
    rq ∈ p'.allRequests ∨ rq ∈ s.allRequests := by
  rcases State.mem_allRequests_iff.mp h with ⟨p, hp, hrq⟩
  rcases Dict.values_insert_subset s.tids k p' p hp with rfl | hold
  · exact Or.inl hrq
  · exact Or.inr (State.mem_allRequests_iff.mpr ⟨p, hold, hrq⟩)

theorem Process.mem_allRequests_of_fds {p : Process} {n : Int} {f : FD}
    {rq : IORequest} (hf : p.fds.find? n = some f)
    (h : rq ∈ f.iorequests) : rq ∈ p.allRequests := by
  unfold Process.allRequests
  refine List.mem_append.mpr (Or.inl (List.mem_append.mpr (Or.inl ?_)))
  exact List.mem_flatten.mpr
    ⟨f.iorequests, List.mem_map.mpr ⟨f, Dict.mem_values_of_find? hf, rfl⟩, h⟩

theorem Process.mem_allRequests_of_closed {p : Process} {n : String}
    {f : FD} {rq : IORequest} (hf : p.closed_fds.find? n = some f)
    (h : rq ∈ f.iorequests) : rq ∈ p.allRequests := by
  unfold Process.allRequests
  refine List.mem_append.mpr (Or.inl (List.mem_append.mpr (Or.inr ?_)))
  exact List.mem_flatten.mpr
    ⟨f.iorequests, List.mem_map.mpr ⟨f, Dict.mem_values_of_find? hf, rfl⟩, h⟩

theorem Process.mem_allRequests_insert_fd {p : Process} {n : Int}
    {f' : FD} {rq : IORequest}
    (h : rq ∈ ({ p with fds := p.fds.insert n f' } : Process).allRequests) :
    rq ∈ f'.iorequests ∨ rq ∈ p.allRequests := by
  unfold Process.allRequests at h ⊢
  rcases List.mem_append.mp h with h1 | h2
  · rcases List.mem_append.mp h1 with ha | hb
    · rcases List.mem_flatten.mp ha with ⟨l, hl, hrq⟩
      rcases List.mem_map.mp hl with ⟨g, hg, rfl⟩
      rcases Dict.values_insert_subset p.fds n f' g hg with rfl | hold
      · exact Or.inl hrq
      · refine Or.inr (List.mem_append.mpr (Or.inl
          (List.mem_append.mpr (Or.inl ?_))))
        exact List.mem_flatten.mpr
          ⟨g.iorequests, List.mem_map.mpr ⟨g, hold, rfl⟩, hrq⟩
    · exact Or.inr (List.mem_append.mpr (Or.inl
        (List.mem_append.mpr (Or.inr hb))))
  · exact Or.inr (List.mem_append.mpr (Or.inr h2))

theorem Process.mem_allRequests_insert_closed {p : Process} {n : String}
    {f' : FD} {rq : IORequest}
    (h : rq ∈ ({ p with closed_fds := p.closed_fds.insert n f' } :
      Process).allRequests) :
    rq ∈ f'.iorequests ∨ rq ∈ p.allRequests := by
  unfold Process.allRequests at h ⊢
  rcases List.mem_append.mp h with h1 | h2
  · rcases List.mem_append.mp h1 with ha | hb
    · exact Or.inr (List.mem_append.mpr (Or.inl
        (List.mem_append.mpr (Or.inl ha))))
    · rcases List.mem_flatten.mp hb with ⟨l, hl, hrq⟩
      rcases List.mem_map.mp hl with ⟨g, hg, rfl⟩
      rcases Dict.values_insert_subset p.closed_fds n f' g hg with rfl | hold
      · exact Or.inl hrq
      · refine Or.inr (List.mem_append.mpr (Or.inl
          (List.mem_append.mpr (Or.inr ?_))))
        exact List.mem_flatten.mpr
          ⟨g.iorequests, List.mem_map.mpr ⟨g, hold, rfl⟩, hrq⟩
  · exact Or.inr (List.mem_append.mpr (Or.inr h2))

theorem State.getProc_setProc_self (s : State) (k : Int) (p' : Process) :
    (s.setProc k p').getProc k = p' := by
  unfold State.setProc State.getProc
  simp [Dict.find?_insert_self]

theorem State.getProc_setProc_ne (s : State) (k : Int) (p' : Process)
    (cur : Int) (h : cur ≠ k) :
    (s.setProc k p').getProc cur = s.getProc cur := by
  unfold State.setProc State.getProc
  rw [Dict.find?_insert_ne _ _ _ _ h]

theorem State.reqs_updProc {s : State} {k : Int} {f : Process → Process}
    (hf : ∀ t rq, rq ∈ (f t).allRequests → rq ∈ t.allRequests) :
    ∀ rq ∈ (s.updProc k f).allRequests, rq ∈ s.allRequests := by
  intro rq h
  rcases State.mem_allRequests_setProc h with hin | hold
  · exact State.mem_allRequests_getProc (hf _ _ hin)
  · exact hold

theorem State.start_updProc (s : State) (k cur : Int)
    (f : Process → Process)
    (hf : ∀ t, (f t).current_syscall.start = t.current_syscall.start) :
    ((s.updProc k f).getProc cur).current_syscall.start =
      ((s.getProc cur).current_syscall).start := by
  by_cases h : cur = k
  · subst h
    rw [State.updProc, State.getProc_setProc_self, hf]
  · rw [State.updProc, State.getProc_setProc_ne _ _ _ _ h]
end LA
namespace LA

theorem State.getProc_updProc (s : State) (k cur : Int)
    (f : Process → Process) :
    (s.updProc k f).getProc cur =
      if cur = k then f (s.getProc k) else s.getProc cur := by
  unfold State.updProc
  by_cases h : cur = k
  · subst h
    simp [State.getProc_setProc_self]
  · simp [h, State.getProc_setProc_ne _ _ _ _ h]

theorem State.reqs_updProc_at {s : State} {k : Int}
    {f : Process → Process}
    (hf : ∀ rq, rq ∈ (f (s.getProc k)).allRequests → rq ∈ s.allRequests) :
    ∀ rq ∈ (s.updProc k f).allRequests, rq ∈ s.allRequests := by
  intro rq h
  rcases State.mem_allRequests_setProc h with hin | hold
  · exact hf rq hin
  · exact hold


theorem State.reqs_updProc_chrono {s : State} {k : Int} {a : Int}
    {b : String} {c : FDType} {d : Int} :
    ∀ rq ∈ (s.updProc k
      (fun p => p.track_chrono_fd a b c d)).allRequests,
      rq ∈ s.allRequests :=
  State.reqs_updProc (fun t rq h => h)

theorem Syscalls.read_append_parts (f : FD) (p : Process) (c : Int)
    (rq : IORequest) :
    ((Syscalls.read_append f p c rq).1.iorequests = f.iorequests ∧
     (Syscalls.read_append f p c rq).2.1.allRequests = p.allRequests ∧
     (Syscalls.read_append f p c rq).2.1.current_syscall =
       p.current_syscall) := by
  unfold Syscalls.read_append
  by_cases h1 : f.fdtype ∈ [FDType.net, FDType.maybe_net]
  · simp [h1, Process.allRequests]
  · by_cases h2 : f.fdtype = FDType.disk
    · simp [h1, h2, Process.allRequests]
    · simp [h1, h2, Process.allRequests]

theorem Syscalls.write_append_parts (f : FD) (p : Process) (c : Int)
    (rq : IORequest) :
    ((Syscalls.write_append f p c rq).1.iorequests = f.iorequests ∧
     (Syscalls.write_append f p c rq).2.1.allRequests = p.allRequests ∧
     (Syscalls.write_append f p c rq).2.1.current_syscall =
       p.current_syscall) := by
  unfold Syscalls.write_append
  by_cases h1 : f.fdtype ∈ [FDType.net, FDType.maybe_net]
  · simp [h1, Process.allRequests]
  · by_cases h2 : f.fdtype = FDType.disk
    · simp [h1, h2, Process.allRequests]
    · simp [h1, h2, Process.allRequests]

end LA
namespace LA

theorem Syscalls.get_fd_snd_reqs (p : Process) (n ts : Int) :
    ∀ rq ∈ (Syscalls.get_fd p n ts).2.allRequests, rq ∈ p.allRequests := by
  intro rq h
  unfold Syscalls.get_fd at h
  rcases hx : p.fds.find? n with _ | f
  · rw [hx] at h
    have h' : rq ∈ ({ p with fds := (p.fds.insert n { fd := n, filename := "unknown (origin not found)" }) } : Process).allRequests := h
    rcases Process.mem_allRequests_insert_fd h' with hin | hold
    · simp at hin
    · exact hold
  · rw [hx] at h
    exact h

theorem Syscalls.get_fd_snd_cs (p : Process) (n ts : Int) :
    (Syscalls.get_fd p n ts).2.current_syscall = p.current_syscall := by
  unfold Syscalls.get_fd
  rcases hx : p.fds.find? n with _ | f <;> simp [hx, Process.track_chrono_fd]

theorem Syscalls.per_tid_syscall_exit_reqs (s : State) (name : String)
    (ret : Int) (e : Event) (cur : Int) :
    (∀ rq ∈ (Syscalls.per_tid_syscall_exit s name ret e cur).allRequests,
      rq ∈ s.allRequests) ∧
    ((Syscalls.per_tid_syscall_exit s name ret e cur).getProc
        cur).current_syscall.start =
      (s.getProc cur).current_syscall.start := by
  unfold Syscalls.per_tid_syscall_exit
  dsimp only
  split
  · exact ⟨fun rq h => h, rfl⟩
  · constructor
    · intro rq h
      rcases State.mem_allRequests_setProc h with hin | hold
      · exact State.mem_allRequests_getProc hin
      · exact hold
    · rw [State.getProc_setProc_self]
theorem Syscalls.setRecordRq_reqs (s : State) (cur : Int) (rq : IORequest) :
    (∀ r ∈ (Syscalls.setRecordRq s cur rq).allRequests,
      r ∈ s.allRequests) ∧
    ((Syscalls.setRecordRq s cur rq).getProc cur).current_syscall.start =
      (s.getProc cur).current_syscall.start := by
  unfold Syscalls.setRecordRq
  exact ⟨State.reqs_updProc (fun t r h => h),
         State.start_updProc s cur cur _ (fun t => rfl)⟩

theorem Syscalls.add_tid_fd_reqs (s : State) (e : Event) (cur : Int) :
    (∀ rq ∈ (Syscalls.add_tid_fd s e cur).allRequests,
      rq ∈ s.allRequests) ∧
    ((Syscalls.add_tid_fd s e cur).getProc cur).current_syscall.start =
      (s.getProc cur).current_syscall.start := by
  unfold Syscalls.add_tid_fd
  dsimp only
  by_cases hre : (s.getProc cur).current_syscall.filename.getD "" ∉
      SyscallConsts.GENERIC_NAMES ∧
      (s.getProc (Syscalls.parentTid (s.getProc cur)
        cur)).closed_fds.contains
        ((s.getProc cur).current_syscall.filename.getD "") = true
  · by_cases hret : e.int "ret" < 0
    · simp only [eq_true hre, if_true, eq_true hret]
      obtain ⟨hgen, hcont⟩ := hre
      obtain ⟨g, hg⟩ : ∃ g, (s.getProc (Syscalls.parentTid (s.getProc cur)
          cur)).closed_fds.find?
          ((s.getProc cur).current_syscall.filename.getD "") = some g := by
        rcases hx : (s.getProc (Syscalls.parentTid (s.getProc cur)
            cur)).closed_fds.find?
            ((s.getProc cur).current_syscall.filename.getD "") with _ | g
        · simp [Dict.contains, hx] at hcont
        · exact ⟨g, rfl⟩
      constructor
      · refine State.reqs_updProc_at ?_
        intro rq h
        rcases Process.mem_allRequests_insert_closed h with hin | hold
        · simp only [hg, Option.getD_some] at hin
          exact State.mem_allRequests_getProc
            (Process.mem_allRequests_of_closed hg hin)
        · exact State.mem_allRequests_getProc hold
      · by_cases hq : cur = Syscalls.parentTid (s.getProc cur) cur
        · simp only [State.getProc_updProc, ← hq, eq_self_iff_true,
            if_true]
          try simp [Process.track_chrono_fd]
        · simp only [State.getProc_updProc, if_neg hq]
    · simp only [eq_true hre, if_true, eq_false hret, if_false]
      obtain ⟨hgen, hcont⟩ := hre
      obtain ⟨g, hg⟩ : ∃ g, (s.getProc (Syscalls.parentTid (s.getProc cur)
          cur)).closed_fds.find?
          ((s.getProc cur).current_syscall.filename.getD "") = some g := by
        rcases hx : (s.getProc (Syscalls.parentTid (s.getProc cur)
            cur)).closed_fds.find?
            ((s.getProc cur).current_syscall.filename.getD "") with _ | g
        · simp [Dict.contains, hx] at hcont
        · exact ⟨g, rfl⟩
      constructor
      · intro rq h
        have h1 := State.reqs_updProc_chrono rq h
        rcases State.mem_allRequests_setProc h1 with hin | hold
        · rcases Process.mem_allRequests_insert_fd hin with hio | hold2
          · simp only [apply_ite FD.iorequests, ite_self, hg,
              Option.getD_some] at hio
            exact State.mem_allRequests_getProc
              (Process.mem_allRequests_of_closed hg hio)
          · rw [State.getProc_updProc, if_pos rfl] at hold2
            rcases Process.mem_allRequests_insert_closed hold2 with
              hin2 | hold3
            · simp only [hg, Option.getD_some] at hin2
              exact State.mem_allRequests_getProc
                (Process.mem_allRequests_of_closed hg hin2)
            · exact State.mem_allRequests_getProc hold3
        · refine State.reqs_updProc_at ?_ rq hold
          intro rq2 h2
          rcases Process.mem_allRequests_insert_closed h2 with hin | hold2
          · simp only [hg, Option.getD_some] at hin
            exact State.mem_allRequests_getProc
              (Process.mem_allRequests_of_closed hg hin)
          · exact State.mem_allRequests_getProc hold2
      · by_cases hq : cur = Syscalls.parentTid (s.getProc cur) cur
        · simp only [State.getProc_updProc, ← hq, eq_self_iff_true,
            if_true]
          try simp [Process.track_chrono_fd]
        · simp only [State.getProc_updProc, if_neg hq]
  · by_cases hret : e.int "ret" < 0
    · simp only [eq_false hre, if_false, eq_true hret, if_true]
      exact ⟨fun rq h => h, trivial⟩
    · simp only [eq_false hre, if_false, eq_false hret]
      constructor
      · intro rq h
        have h1 := State.reqs_updProc_chrono rq h
        rcases State.mem_allRequests_setProc h1 with hin | hold
        · rcases Process.mem_allRequests_insert_fd hin with hio | hold2
          · simp only [apply_ite FD.iorequests, ite_self] at hio
            simp at hio
          · exact State.mem_allRequests_getProc hold2
        · exact hold
      · by_cases hq : cur = Syscalls.parentTid (s.getProc cur) cur
        · simp only [State.getProc_updProc, ← hq, eq_self_iff_true,
            if_true]
          try simp [Process.track_chrono_fd]
        · simp only [State.getProc_updProc, if_neg hq]

theorem State.getProc_setProc (s : State) (k : Int) (p' : Process)
    (cur : Int) :
    (s.setProc k p').getProc cur =
      if cur = k then p' else s.getProc cur := by
  by_cases h : cur = k
  · subst h
    simp [State.getProc_setProc_self]
  · simp [h, State.getProc_setProc_ne _ _ _ _ h]

theorem Syscalls.applyRW_reqs (b : Bool) (s : State)
    (fdref : Option (Int × Int)) (procTid cnt : Int) (rq : IORequest) :
    (∀ r ∈ (Syscalls.applyRW b s fdref procTid cnt rq).1.allRequests,
      r ∈ s.allRequests) ∧
    (∀ cur, ((Syscalls.applyRW b s fdref procTid cnt
        rq).1.getProc cur).current_syscall.start =
      (s.getProc cur).current_syscall.start) := by
  unfold Syscalls.applyRW
  rcases fdref with _ | ⟨ro, n⟩
  · exact ⟨fun r h => h, fun cur => rfl⟩
  · dsimp only
    rcases hx : (s.getProc ro).fds.find? n with _ | f
    · simp only [hx]
      by_cases hb : b = true
      · rw [if_pos hb]
        constructor
        · intro r h
          rcases State.mem_allRequests_setProc h with hin | hold
          · rw [(Syscalls.read_append_parts {} (s.getProc procTid) cnt
              rq).2.1] at hin
            exact State.mem_allRequests_getProc hin
          · exact hold
        · intro cur
          rw [State.getProc_setProc]
          split_ifs with h
          · rw [(Syscalls.read_append_parts {} (s.getProc procTid) cnt
              rq).2.2, h]
          · rfl
      · rw [if_neg hb]
        constructor
        · intro r h
          rcases State.mem_allRequests_setProc h with hin | hold
          · rw [(Syscalls.write_append_parts {} (s.getProc procTid) cnt
              rq).2.1] at hin
            exact State.mem_allRequests_getProc hin
          · exact hold
        · intro cur
          rw [State.getProc_setProc]
          split_ifs with h
          · rw [(Syscalls.write_append_parts {} (s.getProc procTid) cnt
              rq).2.2, h]
          · rfl
    · simp only [hx]
      by_cases hb : b = true
      · rw [if_pos hb]
        constructor
        · intro r h
          rcases State.mem_allRequests_setProc h with hin | hold
          · rcases Process.mem_allRequests_insert_fd hin with hio | hold2
            · rw [(Syscalls.read_append_parts f (s.getProc procTid) cnt
                rq).1] at hio
              exact State.mem_allRequests_getProc
                (Process.mem_allRequests_of_fds hx hio)
            · rw [State.getProc_setProc] at hold2
              split_ifs at hold2 with hro
              · rw [(Syscalls.read_append_parts f (s.getProc procTid) cnt
                  rq).2.1] at hold2
                exact State.mem_allRequests_getProc hold2
              · exact State.mem_allRequests_getProc hold2
          · rcases State.mem_allRequests_setProc hold with hin2 | hold2
            · rw [(Syscalls.read_append_parts f (s.getProc procTid) cnt
                rq).2.1] at hin2
              exact State.mem_allRequests_getProc hin2
            · exact hold2
        · intro cur
          rw [State.getProc_updProc]
          split_ifs with h
          · rw [h] at *
            rw [State.getProc_setProc]
            split_ifs with h2
            · rw [(Syscalls.read_append_parts f (s.getProc procTid) cnt
                rq).2.2, h2]
            · rfl
          · rw [State.getProc_setProc]
            split_ifs with h2
            · rw [(Syscalls.read_append_parts f (s.getProc procTid) cnt
                rq).2.2, h2]
            · rfl
      · rw [if_neg hb]
        constructor
        · intro r h
          rcases State.mem_allRequests_setProc h with hin | hold
          · rcases Process.mem_allRequests_insert_fd hin with hio | hold2
            · rw [(Syscalls.write_append_parts f (s.getProc procTid) cnt
                rq).1] at hio
              exact State.mem_allRequests_getProc
                (Process.mem_allRequests_of_fds hx hio)
            · rw [State.getProc_setProc] at hold2
              split_ifs at hold2 with hro
              · rw [(Syscalls.write_append_parts f (s.getProc procTid) cnt
                  rq).2.1] at hold2
                exact State.mem_allRequests_getProc hold2
              · exact State.mem_allRequests_getProc hold2
          · rcases State.mem_allRequests_setProc hold with hin2 | hold2
            · rw [(Syscalls.write_append_parts f (s.getProc procTid) cnt
                rq).2.1] at hin2
              exact State.mem_allRequests_getProc hin2
            · exact hold2
        · intro cur
          rw [State.getProc_updProc]
          split_ifs with h
          · rw [h] at *
            rw [State.getProc_setProc]
            split_ifs with h2
            · rw [(Syscalls.write_append_parts f (s.getProc procTid) cnt
                rq).2.2, h2]
            · rfl
          · rw [State.getProc_setProc]
            split_ifs with h2
            · rw [(Syscalls.write_append_parts f (s.getProc procTid) cnt
                rq).2.2, h2]
            · rfl
end LA
namespace LA

theorem Syscalls.track_read_write_return_reqs (s : State) (name : String)
    (ret cur : Int) :
    (∀ r ∈ (Syscalls.track_read_write_return s name ret cur).allRequests,
      r ∈ s.allRequests) ∧
    ((Syscalls.track_read_write_return s name ret
        cur).getProc cur).current_syscall.start =
      (s.getProc cur).current_syscall.start := by
  unfold Syscalls.track_read_write_return
  dsimp only
  by_cases h0 : ret < 0
  · rw [if_pos h0]
    exact ⟨fun r h => h, rfl⟩
  · rw [if_neg h0]
    by_cases h1 : name ∈ ["sys_splice", "syscall_entry_splice",
        "sys_sendfile64", "syscall_entry_sendfile64"]
    · rw [if_pos h1]
      constructor
      · intro r h
        have h2 := (Syscalls.setRecordRq_reqs _ _ _).1 r h
        have h3 := (Syscalls.applyRW_reqs _ _ _ _ _ _).1 r h2
        exact (Syscalls.applyRW_reqs _ _ _ _ _ _).1 r h3
      · rw [(Syscalls.setRecordRq_reqs _ _ _).2,
          (Syscalls.applyRW_reqs _ _ _ _ _ _).2,
          (Syscalls.applyRW_reqs _ _ _ _ _ _).2]
    · rw [if_neg h1]
      by_cases h2 : name ∈ SyscallConsts.READ_SYSCALLS
      · rw [if_pos h2]
        by_cases h3 : ret > 0
        · rw [if_pos h3]
          constructor
          · intro r h
            have h4 := (Syscalls.setRecordRq_reqs _ _ _).1 r h
            exact (Syscalls.applyRW_reqs _ _ _ _ _ _).1 r h4
          · rw [(Syscalls.setRecordRq_reqs _ _ _).2,
              (Syscalls.applyRW_reqs _ _ _ _ _ _).2]
        · rw [if_neg h3]
          exact ⟨fun r h => h, rfl⟩
      · rw [if_neg h2]
        by_cases h4 : name ∈ SyscallConsts.WRITE_SYSCALLS
        · rw [if_pos h4]
          by_cases h3 : ret > 0
          · rw [if_pos h3]
            constructor
            · intro r h
              have h5 := (Syscalls.setRecordRq_reqs _ _ _).1 r h
              exact (Syscalls.applyRW_reqs _ _ _ _ _ _).1 r h5
            · rw [(Syscalls.setRecordRq_reqs _ _ _).2,
                (Syscalls.applyRW_reqs _ _ _ _ _ _).2]
          · rw [if_neg h3]
            exact ⟨fun r h => h, rfl⟩
        · rw [if_neg h4]
          exact ⟨fun r h => h, rfl⟩

theorem Syscalls.setRecordRq_record (s : State) (cur : Int)
    (rq : IORequest) :
    ((Syscalls.setRecordRq s cur rq).getProc
      cur).current_syscall.iorequest = some rq := by
  unfold Syscalls.setRecordRq
  rw [State.getProc_updProc, if_pos rfl]

theorem Process.mem_allRequests_append_ior {p : Process}
    {l : List IORequest} {rq : IORequest}
    (h : rq ∈ ({ p with iorequests := p.iorequests ++ l } :
      Process).allRequests) :
    rq ∈ p.allRequests ∨ rq ∈ l := by
  unfold Process.allRequests at h ⊢
  rcases List.mem_append.mp h with h1 | h2
  · exact Or.inl (List.mem_append.mpr (Or.inl h1))
  · rcases List.mem_append.mp h2 with ha | hb
    · exact Or.inl (List.mem_append.mpr (Or.inr ha))
    · exact Or.inr hb

theorem Syscalls.appendRqFd_reqs (s : State) (ro n : Int)
    (rq : IORequest) :
    ∀ r ∈ (Syscalls.appendRqFd s ro n rq).allRequests,
      r ∈ s.allRequests ∨ r = rq := by
  intro r h
  unfold Syscalls.appendRqFd at h
  rcases State.mem_allRequests_setProc h with hin | hold
  · dsimp only at hin
    rcases hy : (s.getProc ro).fds.find? n with _ | f
    · rw [hy] at hin
      exact Or.inl (State.mem_allRequests_getProc hin)
    · rw [hy] at hin
      have hin2 : r ∈ ({ (s.getProc ro) with fds :=
          ((s.getProc ro).fds.insert n { f with iorequests :=
            f.iorequests ++ [rq] }) } : Process).allRequests := hin
      rcases Process.mem_allRequests_insert_fd hin2 with hio | hold2
      · rcases List.mem_append.mp hio with ha | hb
        · exact Or.inl (State.mem_allRequests_getProc
            (Process.mem_allRequests_of_fds hy ha))
        · exact Or.inr (List.mem_singleton.mp hb)
      · exact Or.inl (State.mem_allRequests_getProc hold2)
  · exact Or.inl hold

theorem Syscalls.appendRqFd_cs (s : State) (ro n cur : Int)
    (rq : IORequest) :
    ((Syscalls.appendRqFd s ro n rq).getProc cur).current_syscall =
      (s.getProc cur).current_syscall := by
  unfold Syscalls.appendRqFd
  rw [State.getProc_updProc]
  split_ifs with h
  · subst h
    try dsimp only
    rcases hy : (s.getProc cur).fds.find? n with _ | f
    · rfl
    · rfl
  · rfl

theorem Syscalls.fdtypeFix_reqs (s : State) (k n : Int) (fdt : FDType) :
    ∀ r ∈ (Syscalls.fdtypeFix s k n fdt).allRequests,
      r ∈ s.allRequests := by
  intro r h
  unfold Syscalls.fdtypeFix at h
  rcases State.mem_allRequests_setProc h with hin | hold
  · dsimp only at hin
    rcases hy : (s.getProc k).fds.find? n with _ | f0
    · rw [hy] at hin
      exact State.mem_allRequests_getProc hin
    · rw [hy] at hin
      have hin2 : r ∈ ({ (s.getProc k) with fds :=
          ((s.getProc k).fds.insert n { f0 with fdtype := fdt }) } :
          Process).allRequests := hin
      rcases Process.mem_allRequests_insert_fd hin2 with hio | hold2
      · exact State.mem_allRequests_getProc
          (Process.mem_allRequests_of_fds hy hio)
      · exact State.mem_allRequests_getProc hold2
  · exact hold

theorem Syscalls.fdtypeFix_start (s : State) (k n cur : Int)
    (fdt : FDType) :
    ((Syscalls.fdtypeFix s k n fdt).getProc
      cur).current_syscall.start =
      (s.getProc cur).current_syscall.start := by
  unfold Syscalls.fdtypeFix
  rw [State.getProc_updProc]
  split_ifs with h
  · subst h
    try dsimp only
    rcases hy : (s.getProc cur).fds.find? n with _ | f0
    · rfl
    · rfl
  · rfl

end LA
namespace LA

theorem Syscalls.reqs_rec_fd_count (s : State) (k : Int) (v : Int × Int)
    (cv : CountV) :
    ∀ r ∈ (s.updProc k (fun t => { t with current_syscall :=
        { t.current_syscall with fd := some v,
                                 count := some cv } })).allRequests,
      r ∈ s.allRequests := by
  refine State.reqs_updProc ?_
  intro t r h
  exact h

theorem Syscalls.start_rec_fd_count (s : State) (k cur : Int)
    (v : Int × Int) (cv : CountV) :
    ((s.updProc k (fun t => { t with current_syscall :=
        { t.current_syscall with fd := some v,
                                 count := some cv } })).getProc
      cur).current_syscall.start =
      (s.getProc cur).current_syscall.start := by
  refine State.start_updProc s k cur _ ?_
  intro t
  rfl

theorem Syscalls.reqs_rec_ior_op (s : State) (k : Int) (op : Int) :
    ∀ r ∈ (s.updProc k (fun t => { t with current_syscall :=
        { t.current_syscall with iorequest :=
            (some { (t.current_syscall.iorequest.getD {}) with
                      operation := some op }) } })).allRequests,
      r ∈ s.allRequests := by
  refine State.reqs_updProc ?_
  intro t r h
  exact h

theorem Syscalls.start_rec_ior_op (s : State) (k cur : Int) (op : Int) :
    ((s.updProc k (fun t => { t with current_syscall :=
        { t.current_syscall with iorequest :=
            (some { (t.current_syscall.iorequest.getD {}) with
                      operation := some op }) } })).getProc
      cur).current_syscall.start =
      (s.getProc cur).current_syscall.start := by
  refine State.start_updProc s k cur _ ?_
  intro t
  rfl

theorem Syscalls.reqs_setProc_getfd (s : State) (cur n ts : Int) :
    ∀ r ∈ (s.setProc cur (Syscalls.get_fd (s.getProc cur) n
        ts).2).allRequests, r ∈ s.allRequests := by
  intro r h
  rcases State.mem_allRequests_setProc h with hin | hold
  · exact State.mem_allRequests_getProc
      (Syscalls.get_fd_snd_reqs _ _ _ r hin)
  · exact hold

theorem Syscalls.start_setProc_getfd (s : State) (cur n ts : Int) :
    ((s.setProc cur (Syscalls.get_fd (s.getProc cur) n
        ts).2).getProc cur).current_syscall.start =
      (s.getProc cur).current_syscall.start := by
  rw [State.getProc_setProc_self, Syscalls.get_fd_snd_cs]

theorem Syscalls.finishExit_reqs (s : State) (cur : Int) :
    ∀ r ∈ (Syscalls.finishExit s cur).allRequests,
      r ∈ s.allRequests := by
  intro r h
  unfold Syscalls.finishExit at h
  dsimp only at h
  have h2 : r ∈ (s.updProc cur (fun t =>
      { t with current_syscall := {} })).allRequests := by
    by_cases hp : cur ∈ (s.updProc cur (fun t =>
        { t with current_syscall := {} })).pending_syscalls
    · rw [if_pos hp] at h
      exact h
    · rw [if_neg hp] at h
      exact h
  refine State.reqs_updProc_at ?_ r h2
  intro r2 hr2
  have hr3 : r2 ∈ (s.getProc cur).allRequests := hr2
  exact State.mem_allRequests_getProc hr3

end LA
namespace LA

theorem Syscalls.track_rw_latency_reqs (s : State) (name : String)
    (cur ts st : Int)
    (hstart : (s.getProc cur).current_syscall.start = some st) :
    (∀ r ∈ (Syscalls.track_rw_latency s name cur ts).allRequests,
      r ∈ s.allRequests ∨ goodRq st ts r) ∧
    (∃ rqb, ((Syscalls.track_rw_latency s name cur
        ts).getProc cur).current_syscall.iorequest = some rqb ∧
      goodRq st ts rqb) := by
  unfold Syscalls.track_rw_latency
  dsimp only
  rcases hfd : (s.getProc cur).current_syscall.fd with _ | ⟨ro, n⟩
  · simp only [hfd]
    constructor
    · intro r h
      exact Or.inl ((Syscalls.setRecordRq_reqs _ _ _).1 r h)
    · refine ⟨_, Syscalls.setRecordRq_record _ _ _, ?_⟩
      refine ⟨?_, ?_, ?_⟩ <;> simp [hstart]
  · simp only [hfd]
    constructor
    · intro r h
      rcases Syscalls.appendRqFd_reqs _ _ _ _ r h with hold | hrq
      · exact Or.inl ((Syscalls.setRecordRq_reqs _ _ _).1 r hold)
      · refine Or.inr ?_
        rw [hrq]
        refine ⟨?_, ?_, ?_⟩ <;> simp [hstart]
    · exact ⟨_,
        by
          rw [Syscalls.appendRqFd_cs]
          exact Syscalls.setRecordRq_record _ _ _,
        by refine ⟨?_, ?_, ?_⟩ <;> simp [hstart]⟩

end LA
namespace LA

theorem Syscalls.sync_append_reqs (s : State) (cur : Int)
    (rqb : IORequest)
    (hrec : (s.getProc cur).current_syscall.iorequest = some rqb) :
    ∀ r ∈ (s.updProc cur (fun t => { t with iorequests :=
        t.iorequests ++
          [t.current_syscall.iorequest.getD {}] })).allRequests,
      r ∈ s.allRequests ∨ r = rqb := by
  intro r h
  rcases State.mem_allRequests_setProc h with hin | hold
  · have hin2 : r ∈ ({ (s.getProc cur) with iorequests :=
        (s.getProc cur).iorequests ++
          [(s.getProc cur).current_syscall.iorequest.getD {}] } :
        Process).allRequests := hin
    rcases Process.mem_allRequests_append_ior hin2 with h1 | h2
    · exact Or.inl (State.mem_allRequests_getProc h1)
    · rw [hrec] at h2
      exact Or.inr (List.mem_singleton.mp h2)
  · exact Or.inl hold

theorem Syscalls.sync_tail_reqs (s : State) (name : String)
    (cur ts st : Int)
    (hstart : (s.getProc cur).current_syscall.start = some st) :
    ∀ r ∈ ((if name ∈ ["sys_sync", "syscall_entry_sync"] then
        (Syscalls.track_rw_latency s name cur ts).updProc cur
          (fun t => { t with iorequests :=
            t.iorequests ++ [t.current_syscall.iorequest.getD {}] })
      else Syscalls.track_rw_latency s name cur ts)).allRequests,
      r ∈ s.allRequests ∨ goodRq st ts r := by
  intro r h
  by_cases hs : name ∈ ["sys_sync", "syscall_entry_sync"]
  · rw [if_pos hs] at h
    obtain ⟨rqb, hrec, hgoodb⟩ :=
      (Syscalls.track_rw_latency_reqs s name cur ts st hstart).2
    rcases Syscalls.sync_append_reqs _ _ _ hrec r h with hold | hrq
    · exact (Syscalls.track_rw_latency_reqs s name cur ts st
        hstart).1 r hold
    · refine Or.inr ?_
      rw [hrq]
      exact hgoodb
  · rw [if_neg hs] at h
    exact (Syscalls.track_rw_latency_reqs s name cur ts st hstart).1 r h

end LA
namespace LA

/-- C3: on the CPU of the exit event, with the running thread resolved:
(i) processing a syscall-exit event while the thread's in-flight record
is empty returns the state unchanged — no IORequest is produced and no
aggregate records a duration; (ii) if the record holds an entry
timestamp st with st ≤ the exit timestamp (trace order), then every
IORequest of the resulting state either already existed or is a
completed request whose duration equals exit timestamp minus st, a
non-negative value, with matching begin and end marks. -/
theorem C3_duration_of_completed_requests (s : State) (e : Event)
    (c : CPUState) (cur : Int)
    (hc : s.cpus.find? (e.int "cpu_id") = some c)
    (hcur : c.current_tid = some cur) :
    ((s.getProc cur).current_syscall.isEmpty = true →
      Syscalls.process_syscall_exit s e = s) ∧
    (∀ st, (s.getProc cur).current_syscall.start = some st →
      st ≤ e.timestamp →
      ∀ rq ∈ (Syscalls.process_syscall_exit s e).allRequests,
        rq ∈ s.allRequests ∨
          (rq.duration = some (e.timestamp - st) ∧
           0 ≤ e.timestamp - st ∧
           rq.begin_ = some st ∧ rq.end_ = some e.timestamp)) := by
  constructor
  · intro hemp
    unfold Syscalls.process_syscall_exit
    simp [hc, hcur, hemp]
  · intro st hstart hle rq h
    unfold Syscalls.process_syscall_exit at h
    simp only [hc, hcur] at h
    have hne : (s.getProc cur).current_syscall.isEmpty = false := by
      simp [CS.isEmpty, hstart]
    have hne' : ((s.getProc cur).current_syscall.isEmpty = true) =
        False := by simp [hne]
    simp only [hne', if_false] at h
    by_cases hio : (s.getProc cur).current_syscall.name.getD "" ∉
        SyscallConsts.IO_SYSCALLS
    · simp only [eq_true hio, if_true] at h
      exact Or.inl ((Syscalls.per_tid_syscall_exit_reqs _ _ _ _ _).1 rq h)
    · simp only [eq_false hio, if_false] at h
      by_cases hO : (s.getProc cur).current_syscall.name.getD "" ∈
          SyscallConsts.OPEN_SYSCALLS
      · simp only [eq_true hO, if_true] at h
        by_cases hret : e.int "ret" < 0
        · simp only [eq_true hret, if_true] at h
          have h6 := (Syscalls.add_tid_fd_reqs _ _ _).1 rq h
          have h7 := (Syscalls.setRecordRq_reqs _ _ _).1 rq h6
          exact Or.inl
            ((Syscalls.per_tid_syscall_exit_reqs _ _ _ _ _).1 rq h7)
        · simp only [eq_false hret, if_false] at h
          have h1 := Syscalls.finishExit_reqs _ _ rq h
          have h2 := (Syscalls.track_rw_latency_reqs _ _ _ _ st (by
              rw [Syscalls.start_rec_ior_op, Syscalls.fdtypeFix_start,
                Syscalls.start_rec_fd_count,
                Syscalls.start_setProc_getfd,
                (Syscalls.add_tid_fd_reqs _ _ _).2,
                (Syscalls.setRecordRq_reqs _ _ _).2,
                (Syscalls.per_tid_syscall_exit_reqs _ _ _ _ _).2]
              exact hstart)).1 rq h1
          rcases h2 with hold | hgood
          · have h3 := Syscalls.reqs_rec_ior_op _ _ _ rq hold
            have h4 := Syscalls.fdtypeFix_reqs _ _ _ _ rq h3
            have h5 := Syscalls.reqs_rec_fd_count _ _ _ _ rq h4
            have h6 := Syscalls.reqs_setProc_getfd _ _ _ _ rq h5
            have h7 := (Syscalls.add_tid_fd_reqs _ _ _).1 rq h6
            have h8 := (Syscalls.setRecordRq_reqs _ _ _).1 rq h7
            exact Or.inl
              ((Syscalls.per_tid_syscall_exit_reqs _ _ _ _ _).1 rq h8)
          · exact Or.inr ⟨hgood.1, by omega, hgood.2.1, hgood.2.2⟩
      · simp only [eq_false hO, if_false] at h
        by_cases hR : (s.getProc cur).current_syscall.name.getD "" ∈
            SyscallConsts.READ_SYSCALLS ∨
            (s.getProc cur).current_syscall.name.getD "" ∈
            SyscallConsts.WRITE_SYSCALLS
        · simp only [eq_true hR, if_true] at h
          have h1 := Syscalls.finishExit_reqs _ _ rq h
          have h2 := (Syscalls.track_rw_latency_reqs _ _ _ _ st (by
              rw [(Syscalls.track_read_write_return_reqs _ _ _ _).2,
                (Syscalls.setRecordRq_reqs _ _ _).2,
                (Syscalls.per_tid_syscall_exit_reqs _ _ _ _ _).2]
              exact hstart)).1 rq h1
          rcases h2 with hold | hgood
          · have h3 :=
              (Syscalls.track_read_write_return_reqs _ _ _ _).1 rq hold
            have h4 := (Syscalls.setRecordRq_reqs _ _ _).1 rq h3
            exact Or.inl
              ((Syscalls.per_tid_syscall_exit_reqs _ _ _ _ _).1 rq h4)
          · exact Or.inr ⟨hgood.1, by omega, hgood.2.1, hgood.2.2⟩
        · simp only [eq_false hR, if_false] at h
          by_cases hS : (s.getProc cur).current_syscall.name.getD "" ∈
              SyscallConsts.SYNC_SYSCALLS
          · simp only [eq_true hS, if_true] at h
            have h1 := Syscalls.finishExit_reqs _ _ rq h
            have h2 := Syscalls.sync_tail_reqs _ _ _ _ st (by
                rw [Syscalls.start_rec_ior_op,
                  (Syscalls.setRecordRq_reqs _ _ _).2,
                  (Syscalls.per_tid_syscall_exit_reqs _ _ _ _ _).2]
                exact hstart) rq h1
            rcases h2 with hold | hgood
            · have h3 := Syscalls.reqs_rec_ior_op _ _ _ rq hold
              have h4 := (Syscalls.setRecordRq_reqs _ _ _).1 rq h3
              exact Or.inl
                ((Syscalls.per_tid_syscall_exit_reqs _ _ _ _ _).1 rq h4)
            · exact Or.inr ⟨hgood.1, by omega, hgood.2.1, hgood.2.2⟩
          · simp only [eq_false hS, if_false] at h
            have h1 := Syscalls.finishExit_reqs _ _ rq h
            have h2 := (Syscalls.setRecordRq_reqs _ _ _).1 rq h1
            exact Or.inl
              ((Syscalls.per_tid_syscall_exit_reqs _ _ _ _ _).1 rq h2)

end LA
namespace LA

/-- C3 witness: the theorem applied (i) at an idle thread, where the
exit event leaves the state unchanged, and (ii) at the in-flight read
scenario, at the concrete completed read request, whose duration is
the exit timestamp 115 minus the entry timestamp 110. -/
theorem C3_witness :
    (Syscalls.process_syscall_exit c3_idle_state c2w_exit =
      c3_idle_state) ∧
    (c3_read_rq ∈ c2w_state.allRequests ∨
      (c3_read_rq.duration = some (115 - 110) ∧
       (0 : Int) ≤ 115 - 110 ∧
       c3_read_rq.begin_ = some 110 ∧
       c3_read_rq.end_ = some 115)) := by
  constructor
  · exact (C3_duration_of_completed_requests c3_idle_state c2w_exit
      { current_tid := some 7 } 7 (by decide) rfl).1 (by decide)
  · exact (C3_duration_of_completed_requests c2w_state c2w_exit
      { current_tid := some 42 } 42 (by decide) rfl).2 110 (by decide)
      (by decide) c3_read_rq (by decide)

end LA
